import Mathlib

/-!
# Candle: pattern scoring and risk engine

A shallow embedding of `pkg/risk/manager.go` and `pkg/identify/pattern_scoring.go`.

Number model.  A finite `float64` is modelled by a rational.  A float division
can leave the finite numbers when its divisor is zero, so the quotients the code
compares are kept in `F64`, which adds the two infinities and NaN with the IEEE
comparison rules.

The pattern scorer, the drawdown, volatility and stop-loss functions and the
portfolio update compute with exact rational arithmetic: rounding and overflow
are outside their model.  `CalculatePositionSize`, `calculateTotalRisk` and
`CheckRiskLimits` compute with the IEEE binary64 operations `F64.add`, `F64.sub`,
`F64.mul` and `F64.div` below, which round every result to the nearest float64,
ties to even, and overflow to an infinity.  The sign of zero is not modelled.
-/

namespace Candle

/-! ## Float values -/

/-- A float64 value: a finite number, kept as a rational, an infinity, or NaN. -/
inductive F64 where
  | fin (q : ℚ)
  | posInf
  | negInf
  | nan
  deriving DecidableEq

namespace F64

/-- IEEE `a < b`: false as soon as one side is NaN. -/
def lt : F64 → F64 → Bool
  | fin a, fin b => decide (a < b)
  | fin _, posInf => true
  | negInf, fin _ => true
  | negInf, posInf => true
  | _, _ => false

/-- IEEE `a > b`. -/
def gt (a b : F64) : Bool := lt b a

end F64

/-- Float division `a / b` of two finite operands: a zero divisor gives NaN for
`0 / 0` and an infinity with the sign of the dividend otherwise. -/
def fdiv (a b : ℚ) : F64 :=
  if b = 0 then
    if a = 0 then F64.nan else if 0 < a then F64.posInf else F64.negInf
  else F64.fin (a / b)

/-- Float comparison `r < c` of a quotient with a finite number. -/
def ltQ (r : F64) (c : ℚ) : Bool := F64.lt r (F64.fin c)

/-- Float comparison `r > c` of a quotient with a finite number. -/
def gtQ (r : F64) (c : ℚ) : Bool := F64.gt r (F64.fin c)

/-! ## IEEE binary64 rounding and arithmetic -/

/-- Nearest integer to `m`, a tie going to the even neighbour. -/
def roundHalfEven (m : ℚ) : ℤ :=
  let f := ⌊m⌋
  let r := m - f
  if r < 1 / 2 then f else if 1 / 2 < r then f + 1 else if f % 2 = 0 then f else f + 1

/-- Binary exponent of the float64 binade holding `x`: the `e` with
`2 ^ e ≤ |x| < 2 ^ (e + 1)`, and `-1022` for zero and the subnormal numbers. -/
def binExp (x : ℚ) : ℤ := max (Int.log 2 |x|) (-1022)

/-- Nearest number to `x` on the float64 grid of its binade, whose spacing is
`2 ^ (binExp x - 52)`; ties go to the even significand. -/
def roundFin (x : ℚ) : ℚ :=
  let u : ℚ := 2 ^ (binExp x - 52)
  roundHalfEven (x / u) * u

/-- Least magnitude that rounds to an infinity: the midpoint `2 ^ 1024 - 2 ^ 970`
between the largest float64 and `2 ^ 1024`. -/
def overflowBound : ℚ := 2 ^ 1024 - 2 ^ 970

/-- Round to nearest float64, ties to even: the value an IEEE operation returns
for the exact result `x`. -/
def roundF64 (x : ℚ) : F64 :=
  if overflowBound ≤ |x| then (if 0 < x then F64.posInf else F64.negInf)
  else F64.fin (roundFin x)

namespace F64

/-- IEEE `a + b`. -/
def add : F64 → F64 → F64
  | fin a, fin b => roundF64 (a + b)
  | fin _, posInf => posInf
  | fin _, negInf => negInf
  | posInf, fin _ => posInf
  | posInf, posInf => posInf
  | posInf, negInf => nan
  | negInf, fin _ => negInf
  | negInf, posInf => nan
  | negInf, negInf => negInf
  | nan, _ => nan
  | fin _, nan => nan
  | posInf, nan => nan
  | negInf, nan => nan

/-- IEEE `a - b`. -/
def sub : F64 → F64 → F64
  | fin a, fin b => roundF64 (a - b)
  | fin _, posInf => negInf
  | fin _, negInf => posInf
  | posInf, fin _ => posInf
  | posInf, posInf => nan
  | posInf, negInf => posInf
  | negInf, fin _ => negInf
  | negInf, posInf => negInf
  | negInf, negInf => nan
  | nan, _ => nan
  | fin _, nan => nan
  | posInf, nan => nan
  | negInf, nan => nan

/-- IEEE `a * b`: zero times an infinity is NaN. -/
def mul : F64 → F64 → F64
  | fin a, fin b => roundF64 (a * b)
  | fin a, posInf => if a = 0 then nan else if 0 < a then posInf else negInf
  | fin a, negInf => if a = 0 then nan else if 0 < a then negInf else posInf
  | posInf, fin b => if b = 0 then nan else if 0 < b then posInf else negInf
  | negInf, fin b => if b = 0 then nan else if 0 < b then negInf else posInf
  | posInf, posInf => posInf
  | posInf, negInf => negInf
  | negInf, posInf => negInf
  | negInf, negInf => posInf
  | nan, _ => nan
  | fin _, nan => nan
  | posInf, nan => nan
  | negInf, nan => nan

/-- IEEE `a / b`: a zero divisor gives NaN for `0 / 0` and an infinity
otherwise, a finite number over an infinity is zero, and an infinity over an
infinity is NaN. -/
def div : F64 → F64 → F64
  | fin a, fin b =>
    if b = 0 then
      if a = 0 then nan else if 0 < a then posInf else negInf
    else roundF64 (a / b)
  | fin _, posInf => fin 0
  | fin _, negInf => fin 0
  | posInf, fin b => if 0 ≤ b then posInf else negInf
  | negInf, fin b => if 0 ≤ b then negInf else posInf
  | posInf, posInf => nan
  | posInf, negInf => nan
  | negInf, posInf => nan
  | negInf, negInf => nan
  | nan, _ => nan
  | fin _, nan => nan
  | posInf, nan => nan
  | negInf, nan => nan

end F64

/-! ## Risk engine: drawdown -/

/-- Loop state of `CalculateMaxDrawdown`: the three local variables. -/
structure DrawdownState where
  maxDrawdown : F64
  currentDrawdown : F64
  peak : ℚ

/-- One iteration of the `for _, value := range values` loop of
`CalculateMaxDrawdown`. -/
def drawdownStep (st : DrawdownState) (value : ℚ) : DrawdownState :=
  let peak := if value > st.peak then value else st.peak
  let drawdown := fdiv (peak - value) peak
  let maxDrawdown := if F64.gt drawdown st.maxDrawdown then drawdown else st.maxDrawdown
  let currentDrawdown :=
    if F64.gt drawdown st.currentDrawdown then drawdown else st.currentDrawdown
  { maxDrawdown := maxDrawdown, currentDrawdown := currentDrawdown, peak := peak }

/-- `RiskManager.CalculateMaxDrawdown` (manager.go 111-135). -/
def CalculateMaxDrawdown (values : List ℚ) : F64 × F64 :=
  match values with
  | [] => (F64.fin 0, F64.fin 0)
  | v0 :: _ =>
    let st := values.foldl drawdownStep
      { maxDrawdown := F64.fin 0, currentDrawdown := F64.fin 0, peak := v0 }
    (st.maxDrawdown, st.currentDrawdown)

/-- Running peak `p_i = max(v_0 .. v_i)` of a series, in the words of the
specification (0 for an index outside an empty series). -/
def runningPeak (v : List ℚ) (i : ℕ) : ℚ :=
  match v.take (i + 1) with
  | [] => 0
  | x :: xs => xs.foldl max x

/-- Drawdown at index `i`: `(p_i - v_i) / p_i`, in the words of the
specification. -/
def drawdownAt (v : List ℚ) (i : ℕ) : ℚ :=
  (runningPeak v i - v.getD i 0) / runningPeak v i

/-! ## Risk engine: data model (types.go) -/

/-- `Position` (types.go); `EntryTime` is a wall-clock time and is left out. -/
structure Position where
  Symbol : String
  Quantity : ℤ
  EntryPrice : ℚ
  CurrentPrice : ℚ
  StopLoss : ℚ
  TakeProfit : ℚ

/-- `Portfolio` (types.go); the map `Positions` is a list of key-value pairs,
and the two drawdowns are quotients, kept as float values. -/
structure Portfolio where
  TotalValue : ℚ
  Cash : ℚ
  Positions : List (String × Position)
  RiskBudget : ℚ
  MaxDrawdown : F64
  CurrentDrawdown : F64
  PeakValue : ℚ

/-- `RiskConfig` (types.go). -/
structure RiskConfig where
  MaxPositionSize : ℚ
  MaxTotalRisk : ℚ
  StopLossRatio : ℚ
  TakeProfitRatio : ℚ
  TrailingStopRatio : ℚ
  MaxDrawdownLimit : ℚ
  CorrelationLimit : ℚ
  VolatilityPeriod : ℤ
  VaRConfidence : ℚ
  VaRTimeWindow : ℤ

/-- `DefaultRiskConfig` (types.go 73-86). -/
def DefaultRiskConfig : RiskConfig :=
  { MaxPositionSize := 0.05
    MaxTotalRisk := 0.10
    StopLossRatio := 0.02
    TakeProfitRatio := 0.06
    TrailingStopRatio := 0.03
    MaxDrawdownLimit := 0.15
    CorrelationLimit := 0.7
    VolatilityPeriod := 20
    VaRConfidence := 0.95
    VaRTimeWindow := 1 }

/-- `RiskAlert` (types.go); the field `Type` is named `AlertType` here, and
`Timestamp`, a wall-clock time, is left out.  `Value` can hold a quotient, so
it is a float value. -/
structure RiskAlert where
  AlertType : String
  Message : String
  Level : String
  Value : F64
  Threshold : ℚ

/-- `RiskManager` (manager.go 9-15), without the unused profile and metrics. -/
structure RiskManager where
  portfolio : Portfolio
  config : RiskConfig
  alerts : List RiskAlert

/-- `NewRiskManager` (manager.go 18-36). -/
def NewRiskManager (initialCapital : ℚ) (config : RiskConfig) : RiskManager :=
  { portfolio :=
      { TotalValue := initialCapital
        Cash := initialCapital
        Positions := []
        RiskBudget := initialCapital * config.MaxTotalRisk
        MaxDrawdown := F64.fin 0
        CurrentDrawdown := F64.fin 0
        PeakValue := initialCapital }
    config := config
    alerts := [] }

/-! ## Risk engine: Kelly sizing, volatility, value at risk -/

/-- `RiskManager.CalculatePositionSize` (manager.go 138-160), every operation
rounded as float64 does. -/
def CalculatePositionSize (winRate avgWin avgLoss : ℚ) : F64 :=
  if avgWin ≤ 0 ∨ avgLoss ≤ 0 then F64.fin 0
  else
    let b := F64.div (F64.fin avgWin) (F64.fin avgLoss)
    let p := F64.fin winRate
    let q := F64.sub (F64.fin 1) (F64.fin winRate)
    let kellyFraction := F64.div (F64.sub (F64.mul b p) q) b
    let kellyFraction := if gtQ kellyFraction 0.25 then F64.fin 0.25 else kellyFraction
    let kellyFraction := if ltQ kellyFraction 0 then F64.fin 0 else kellyFraction
    kellyFraction

/-- Float division inside a computation that only does arithmetic on the
quotient: `none` stands for the infinity or NaN a zero divisor produces, which
every later sum, product, power and square root carries to the result. -/
def cdiv (a b : ℚ) : Option ℚ :=
  if b = 0 then none else some (a / b)

/-- The loop filling `returns[i-1] = (prices[i] - prices[i-1]) / prices[i-1]`
for `i = 1 .. len(prices) - 1`. -/
def dailyReturns : List ℚ → Option (List ℚ)
  | prev :: cur :: rest => do
    let r ← cdiv (cur - prev) prev
    let rs ← dailyReturns (cur :: rest)
    pure (r :: rs)
  | _ => some []

/-- The mean and variance loops shared by `CalculateVolatility` and
`CalculateVaR` (manager.go 50-61 and 79-90): the variance of `returns`. -/
def returnsVariance (returns : List ℚ) : Option ℚ := do
  let mean := returns.foldl (fun acc r => acc + r) 0
  let mean ← cdiv mean (returns.length : ℚ)
  let variance := returns.foldl (fun acc r => acc + (r - mean) ^ 2) 0
  cdiv variance (((returns.length : ℤ) - 1 : ℤ) : ℚ)

/-- `RiskManager.CalculateVolatility` (manager.go 39-65); `sqrt` stands for
`math.Sqrt`. -/
def CalculateVolatility (sqrt : ℚ → ℚ) (prices : List ℚ) : Option ℚ :=
  if prices.length < 2 then some 0
  else do
    let returns ← dailyReturns prices
    let variance ← returnsVariance returns
    pure (sqrt variance * sqrt 252)

/-- The `switch confidence` of `CalculateVaR` (manager.go 94-104). -/
def zScore (confidence : ℚ) : ℚ :=
  if confidence = 0.90 then 1.282
  else if confidence = 0.95 then 1.645
  else if confidence = 0.99 then 2.326
  else 1.645

/-- `RiskManager.CalculateVaR` (manager.go 68-108); `sqrt` stands for
`math.Sqrt`. -/
def CalculateVaR (sqrt : ℚ → ℚ) (rm : RiskManager) (prices : List ℚ)
    (confidence : ℚ) : Option ℚ :=
  if prices.length < 2 then some 0
  else do
    let returns ← dailyReturns prices
    let variance ← returnsVariance returns
    let stdDev := sqrt variance
    pure (rm.portfolio.TotalValue * stdDev * zScore confidence)

/-- Simple returns `r_i = (p_i - p_{i-1}) / p_{i-1}` of a price sequence, in
the words of the specification. -/
def simpleReturns (prices : List ℚ) : List ℚ :=
  List.zipWith (fun prev cur => (cur - prev) / prev) prices prices.tail

/-- Sample standard deviation with divisor `n - 1` of `n` samples, in the words
of the specification. -/
def sampleStd (sqrt : ℚ → ℚ) (xs : List ℚ) : ℚ :=
  let n : ℚ := xs.length
  let mean := xs.sum / n
  sqrt ((xs.map (fun x => (x - mean) ^ 2)).sum / (n - 1))

/-! ## Risk engine: stop-loss policies (stop_loss.go, manager.go 163-179) -/

/-- Go map index `params[key]` on a `map[string]float64`, the map being a list
of key-value pairs: the value stored under the key, or the zero value 0 when
the key is absent. -/
def paramGet (params : List (String × ℚ)) (key : String) : ℚ :=
  (params.lookup key).getD 0

/-- `FixedStopLoss` (stop_loss.go 11-13). -/
structure FixedStopLoss where
  ratio : ℚ

/-- `NewFixedStopLoss` (stop_loss.go 15-17). -/
def NewFixedStopLoss (ratio : ℚ) : FixedStopLoss := { ratio := ratio }

/-- `FixedStopLoss.CalculateStopLoss` (stop_loss.go 19-21). -/
def FixedStopLoss.CalculateStopLoss (f : FixedStopLoss) (entryPrice _currentPrice : ℚ)
    (_params : List (String × ℚ)) : ℚ :=
  entryPrice * (1 - f.ratio)

/-- `TrailingStopLoss` (stop_loss.go 24-26). -/
structure TrailingStopLoss where
  ratio : ℚ

/-- `NewTrailingStopLoss` (stop_loss.go 28-30). -/
def NewTrailingStopLoss (ratio : ℚ) : TrailingStopLoss := { ratio := ratio }

/-- `TrailingStopLoss.CalculateStopLoss` (stop_loss.go 32-43). -/
def TrailingStopLoss.CalculateStopLoss (t : TrailingStopLoss) (entryPrice currentPrice : ℚ)
    (params : List (String × ℚ)) : ℚ :=
  let highestPrice := paramGet params "highest"
  let highestPrice := if highestPrice = 0 then entryPrice else highestPrice
  let highestPrice := if currentPrice > highestPrice then currentPrice else highestPrice
  max (entryPrice * (1 - t.ratio)) (highestPrice * (1 - t.ratio))

/-- `ATRStopLoss` (stop_loss.go 46-48). -/
structure ATRStopLoss where
  multiplier : ℚ

/-- `NewATRStopLoss` (stop_loss.go 50-52). -/
def NewATRStopLoss (multiplier : ℚ) : ATRStopLoss := { multiplier := multiplier }

/-- `ATRStopLoss.CalculateStopLoss` (stop_loss.go 54-60). -/
def ATRStopLoss.CalculateStopLoss (a : ATRStopLoss) (entryPrice _currentPrice : ℚ)
    (params : List (String × ℚ)) : ℚ :=
  let atr := paramGet params "atr"
  if atr = 0 then entryPrice * 0.98
  else entryPrice - atr * a.multiplier

/-- `RiskManager.CalculateStopLoss` (manager.go 163-179). -/
def RiskManager.CalculateStopLoss (rm : RiskManager) (entryPrice : ℚ)
    (stopLossType : String) (params : List (String × ℚ)) : ℚ :=
  if stopLossType = "fixed" then
    let ratio := paramGet params "ratio"
    entryPrice * (1 - ratio)
  else if stopLossType = "atr" then
    let atr := paramGet params "atr"
    let multiplier := paramGet params "multiplier"
    entryPrice - atr * multiplier
  else if stopLossType = "trailing" then
    let ratio := paramGet params "ratio"
    let highestPrice := paramGet params "highest"
    max (entryPrice * (1 - ratio)) (highestPrice * (1 - ratio))
  else entryPrice * (1 - rm.config.StopLossRatio)

/-! ## Risk engine: portfolio updates (manager.go 244-305) -/

/-- The assignment `position.CurrentPrice = currentPrice` through the pointer
stored under `symbol`; a map holds a key once. -/
def setCurrentPrice (positions : List (String × Position)) (symbol : String)
    (currentPrice : ℚ) : List (String × Position) :=
  positions.map fun kv =>
    if kv.1 = symbol then (kv.1, { kv.2 with CurrentPrice := currentPrice }) else kv

/-- `RiskManager.updateTotalValue` (manager.go 257-277). -/
def updateTotalValue (rm : RiskManager) : RiskManager :=
  let totalValue := rm.portfolio.Positions.foldl
    (fun totalValue kv => totalValue + (kv.2.Quantity : ℚ) * kv.2.CurrentPrice)
    rm.portfolio.Cash
  let peakValue :=
    if totalValue > rm.portfolio.PeakValue then totalValue else rm.portfolio.PeakValue
  let currentDrawdown := fdiv (peakValue - totalValue) peakValue
  let maxDrawdown :=
    if F64.gt currentDrawdown rm.portfolio.MaxDrawdown then currentDrawdown
    else rm.portfolio.MaxDrawdown
  { rm with
    portfolio :=
      { rm.portfolio with
        TotalValue := totalValue
        PeakValue := peakValue
        CurrentDrawdown := currentDrawdown
        MaxDrawdown := maxDrawdown } }

/-- `RiskManager.addAlert` (manager.go 308-310). -/
def addAlert (rm : RiskManager) (alert : RiskAlert) : RiskManager :=
  { rm with alerts := rm.alerts ++ [alert] }

/-- `RiskManager.checkStopLossTakeProfit` (manager.go 280-305); it is only
called for a symbol that has a position. -/
def checkStopLossTakeProfit (rm : RiskManager) (symbol : String) : RiskManager :=
  match rm.portfolio.Positions.lookup symbol with
  | none => rm
  | some position =>
    let rm :=
      if position.CurrentPrice ≤ position.StopLoss then
        addAlert rm
          { AlertType := "stop_loss"
            Message := "触发止损: " ++ symbol
            Level := "high"
            Value := F64.fin position.CurrentPrice
            Threshold := position.StopLoss }
      else rm
    if position.CurrentPrice ≥ position.TakeProfit then
      addAlert rm
        { AlertType := "take_profit"
          Message := "触发止盈: " ++ symbol
          Level := "medium"
          Value := F64.fin position.CurrentPrice
          Threshold := position.TakeProfit }
    else rm

/-- `RiskManager.UpdatePortfolio` (manager.go 244-254). -/
def UpdatePortfolio (rm : RiskManager) (symbol : String) (currentPrice : ℚ) :
    RiskManager :=
  match rm.portfolio.Positions.lookup symbol with
  | some _ =>
    let rm :=
      { rm with
        portfolio :=
          { rm.portfolio with
            Positions := setCurrentPrice rm.portfolio.Positions symbol currentPrice } }
    let rm := updateTotalValue rm
    checkStopLossTakeProfit rm symbol
  | none => rm

/-- `RiskManager.GetAlerts` (manager.go 313-315). -/
def GetAlerts (rm : RiskManager) : List RiskAlert := rm.alerts

/-- `RiskManager.ClearAlerts` (manager.go 318-320). -/
def ClearAlerts (rm : RiskManager) : RiskManager := { rm with alerts := [] }

/-- One iteration of the `for _, position := range rm.portfolio.Positions` loop
of `calculateTotalRisk`, every operation rounded as float64 does. -/
def totalRiskStep (totalRisk : F64) (position : Position) : F64 :=
  let positionValue :=
    F64.mul (roundF64 (position.Quantity : ℚ)) (F64.fin position.CurrentPrice)
  let stopLossRisk :=
    F64.div (F64.sub (F64.fin position.CurrentPrice) (F64.fin position.StopLoss))
      (F64.fin position.CurrentPrice)
  F64.add totalRisk (F64.mul positionValue stopLossRisk)

/-- `RiskManager.calculateTotalRisk` (manager.go 231-241); the positions are
visited in the order of the list. -/
def calculateTotalRisk (rm : RiskManager) : F64 :=
  let totalRisk :=
    rm.portfolio.Positions.foldl (fun totalRisk kv => totalRiskStep totalRisk kv.2)
      (F64.fin 0)
  F64.div totalRisk (F64.fin rm.portfolio.TotalValue)

/-- `RiskManager.CheckRiskLimits` (manager.go 182-228), the position ratio
rounded as float64 does; the positions are visited in the order of the list. -/
def CheckRiskLimits (rm : RiskManager) : List RiskAlert :=
  let alerts : List RiskAlert := []
  let totalRisk := calculateTotalRisk rm
  let alerts :=
    if gtQ totalRisk rm.config.MaxTotalRisk then
      alerts ++
        [{ AlertType := "total_risk"
           Message := "总风险超过限制"
           Level := "high"
           Value := totalRisk
           Threshold := rm.config.MaxTotalRisk }]
    else alerts
  let alerts :=
    if gtQ rm.portfolio.CurrentDrawdown rm.config.MaxDrawdownLimit then
      alerts ++
        [{ AlertType := "max_drawdown"
           Message := "当前回撤超过限制"
           Level := "critical"
           Value := rm.portfolio.CurrentDrawdown
           Threshold := rm.config.MaxDrawdownLimit }]
    else alerts
  rm.portfolio.Positions.foldl
    (fun alerts kv =>
      let positionValue :=
        F64.mul (roundF64 (kv.2.Quantity : ℚ)) (F64.fin kv.2.CurrentPrice)
      let positionRatio := F64.div positionValue (F64.fin rm.portfolio.TotalValue)
      if gtQ positionRatio rm.config.MaxPositionSize then
        alerts ++
          [{ AlertType := "position_size"
             Message := "单笔仓位过大: " ++ kv.1
             Level := "medium"
             Value := positionRatio
             Threshold := rm.config.MaxPositionSize }]
      else alerts)
    alerts

/-! ## Pattern scorer (pattern_scoring.go) -/

/-- Modelled from the spec: the Bar View type `CandlestickWrapper`, declared
outside `pattern_scoring.go`; it wraps one OHLCV bar. -/
structure CandlestickWrapper where
  Timestamp : ℤ
  Open : ℚ
  High : ℚ
  Low : ℚ
  Close : ℚ
  Volume : ℚ

namespace CandlestickWrapper

/-- Modelled from the spec: method `Body` of the Bar View, `body = |close - open|`. -/
def Body (c : CandlestickWrapper) : ℚ := |c.Close - c.Open|

/-- Modelled from the spec: method `UpperShadow` of the Bar View,
`upperShadow = high - max(open, close)`. -/
def UpperShadow (c : CandlestickWrapper) : ℚ := c.High - max c.Open c.Close

/-- Modelled from the spec: method `LowerShadow` of the Bar View,
`lowerShadow = min(open, close) - low`. -/
def LowerShadow (c : CandlestickWrapper) : ℚ := min c.Open c.Close - c.Low

/-- Modelled from the spec: method `IsBullish` of the Bar View,
`isBullish = close > open`. -/
def IsBullish (c : CandlestickWrapper) : Bool := decide (c.Close > c.Open)

/-- Modelled from the spec: method `IsBearish` of the Bar View,
`isBearish = close < open`. -/
def IsBearish (c : CandlestickWrapper) : Bool := decide (c.Close < c.Open)

end CandlestickWrapper

/-- `PatternResult` (pattern_scoring.go 16-25); `Timestamp`, the wall-clock time
of the call, is left out. -/
structure PatternResult where
  Pattern : String
  Detected : Bool
  Strength : ℚ
  Confidence : ℚ
  Position : ℤ
  Direction : String
  Description : String

/-- `PatternConfig` (pattern_scoring.go 28-44). -/
structure PatternConfig where
  BodyRatioThreshold : ℚ
  ShadowRatioThreshold : ℚ
  VolumeRatioThreshold : ℚ
  TrendContextRequired : Bool
  TrendStrengthThreshold : ℚ
  ShapeWeight : ℚ
  SizeWeight : ℚ
  VolumeWeight : ℚ
  TrendWeight : ℚ
  ContextWeight : ℚ

/-- `DefaultPatternConfig` (pattern_scoring.go 47-60). -/
def DefaultPatternConfig : PatternConfig :=
  { BodyRatioThreshold := 0.1
    ShadowRatioThreshold := 0.2
    VolumeRatioThreshold := 1.5
    TrendContextRequired := true
    TrendStrengthThreshold := 0.6
    ShapeWeight := 0.4
    SizeWeight := 0.3
    VolumeWeight := 0.1
    TrendWeight := 0.1
    ContextWeight := 0.1 }

/-- `PatternScorer` (pattern_scoring.go 63-65). -/
structure PatternScorer where
  config : PatternConfig

/-- `NewPatternScorer` (pattern_scoring.go 68-72). -/
def NewPatternScorer (config : PatternConfig) : PatternScorer :=
  { config := config }

/-- The composite literal `PatternResult{Pattern: name, Detected: false}` of the
early returns: every other field has its zero value. -/
def notDetected (name : String) : PatternResult :=
  { Pattern := name
    Detected := false
    Strength := 0
    Confidence := 0
    Position := 0
    Direction := ""
    Description := "" }

/-- Go slice expression `s[lo:hi]`, for `lo <= hi <= len(s)`. -/
def slice (s : List CandlestickWrapper) (lo hi : ℕ) : List CandlestickWrapper :=
  (s.take hi).drop lo

/-- `calculateAverageVolume` (pattern_scoring.go 413-423). -/
def calculateAverageVolume (candles : List CandlestickWrapper) : ℚ :=
  if candles.length = 0 then 0
  else
    let total := candles.foldl (fun total c => total + c.Volume) 0
    total / (candles.length : ℚ)

/-- The counting loop of `analyzeTrendContext`, `for i := 1; i < len; i++`,
comparing `candles[i].Close` with `candles[i-1].Close`; the head of the list
is `candles[i-1]`. -/
def trendCounts : List CandlestickWrapper → ℕ → ℕ → ℕ × ℕ
  | prev :: cur :: rest, risingCount, fallingCount =>
    if cur.Close > prev.Close then
      trendCounts (cur :: rest) (risingCount + 1) fallingCount
    else if cur.Close < prev.Close then
      trendCounts (cur :: rest) risingCount (fallingCount + 1)
    else trendCounts (cur :: rest) risingCount fallingCount
  | _, risingCount, fallingCount => (risingCount, fallingCount)

/-- `analyzeTrendContext` (pattern_scoring.go 426-448). -/
def analyzeTrendContext (candles : List CandlestickWrapper) : String :=
  if candles.length < 3 then "unknown"
  else
    let counts := trendCounts candles 0 0
    let risingCount := counts.1
    let fallingCount := counts.2
    if risingCount > fallingCount * 2 then "uptrend"
    else if fallingCount > risingCount * 2 then "downtrend"
    else "sideways"

/-- `PatternScorer.ScoreHammer` (pattern_scoring.go 75-163). -/
def ScoreHammer (ps : PatternScorer) (cs : List CandlestickWrapper) : PatternResult :=
  match cs with
  | [] => notDetected "Hammer"
  | c :: _ =>
    let body := c.Body
    let lowerShadow := c.LowerShadow
    let upperShadow := c.UpperShadow
    let totalRange := c.High - c.Low
    if body = 0 ∨ totalRange = 0 then notDetected "Hammer"
    else
      let bodyRatio := fdiv body totalRange
      let lowerShadowRatio := fdiv lowerShadow totalRange
      let upperShadowRatio := fdiv upperShadow totalRange
      let shapeScore : ℚ := 0
      let shapeScore :=
        if ltQ bodyRatio ps.config.BodyRatioThreshold then shapeScore + 0.4 else shapeScore
      let shapeScore :=
        if gtQ lowerShadowRatio ps.config.ShadowRatioThreshold then shapeScore + 0.4
        else shapeScore
      let shapeScore := if ltQ upperShadowRatio 0.05 then shapeScore + 0.2 else shapeScore
      let sizeScore : ℚ := 0
      let sizeScore := if lowerShadow > 2 * body then sizeScore + 0.5 else sizeScore
      let sizeScore := if lowerShadow > 3 * body then sizeScore + 0.3 else sizeScore
      let sizeScore := if body > 0.01 * totalRange then sizeScore + 0.2 else sizeScore
      let volumeScore : ℚ :=
        if cs.length > 1 then
          let avgVolume := calculateAverageVolume (slice cs 1 (min cs.length 6))
          if c.Volume > avgVolume * ps.config.VolumeRatioThreshold then 1.0 else 0
        else 0
      let trendScore : ℚ :=
        if ps.config.TrendContextRequired = true ∧ cs.length > 5 then
          let trend := analyzeTrendContext (slice cs 1 6)
          if trend = "downtrend" then 1.0 else 0
        else 0
      let contextScore : ℚ := if c.Close > c.Low ∧ c.Close > c.Open then 1.0 else 0
      let totalScore := shapeScore * ps.config.ShapeWeight +
        sizeScore * ps.config.SizeWeight +
        volumeScore * ps.config.VolumeWeight +
        trendScore * ps.config.TrendWeight +
        contextScore * ps.config.ContextWeight
      let detected := decide (totalScore > 0.7)
      let confidence := min totalScore 1.0
      { Pattern := "Hammer"
        Detected := detected
        Strength := totalScore
        Confidence := confidence
        Position := 0
        Direction := "bullish"
        Description := "锤头线 - 看涨反转信号" }

/-- `PatternScorer.ScoreDoji` (pattern_scoring.go 166-217). -/
def ScoreDoji (ps : PatternScorer) (cs : List CandlestickWrapper) : PatternResult :=
  match cs with
  | [] => notDetected "Doji"
  | c :: _ =>
    let body := c.Body
    let upperShadow := c.UpperShadow
    let lowerShadow := c.LowerShadow
    let totalRange := c.High - c.Low
    if totalRange = 0 then notDetected "Doji"
    else
      let shapeScore : ℚ := 0
      let bodyRatio := fdiv body totalRange
      let shapeScore :=
        if ltQ bodyRatio ps.config.BodyRatioThreshold then shapeScore + 0.5 else shapeScore
      let upperShadowRatio := fdiv upperShadow totalRange
      let lowerShadowRatio := fdiv lowerShadow totalRange
      let shadowScore : ℚ :=
        if (gtQ upperShadowRatio ps.config.ShadowRatioThreshold &&
            gtQ lowerShadowRatio ps.config.ShadowRatioThreshold) = true then 1.0
        else 0
      let shadowBalance := fdiv |upperShadow - lowerShadow| totalRange
      let balanceScore : ℚ := if ltQ shadowBalance 0.1 then 1.0 else 0
      let totalScore := shapeScore * 0.5 + shadowScore * 0.3 + balanceScore * 0.2
      let detected := decide (totalScore > 0.7)
      let confidence := min totalScore 1.0
      { Pattern := "Doji"
        Detected := detected
        Strength := totalScore
        Confidence := confidence
        Position := 0
        Direction := "neutral"
        Description := "十字星 - 市场犹豫信号" }

/-- `PatternScorer.ScoreMarubozu` (pattern_scoring.go 220-282). -/
def ScoreMarubozu (_ps : PatternScorer) (cs : List CandlestickWrapper) : PatternResult :=
  match cs with
  | [] => notDetected "Marubozu"
  | c :: _ =>
    let body := c.Body
    let upperShadow := c.UpperShadow
    let lowerShadow := c.LowerShadow
    let totalRange := c.High - c.Low
    if totalRange = 0 then notDetected "Marubozu"
    else
      let bodyRatio := fdiv body totalRange
      let sizeScore : ℚ :=
        if gtQ bodyRatio 0.8 then 1.0 else if gtQ bodyRatio 0.6 then 0.7 else 0
      let tolerance := 0.01 * body
      let shadowScore : ℚ :=
        if upperShadow ≤ tolerance ∧ lowerShadow ≤ tolerance then 1.0
        else if upperShadow ≤ tolerance * 2 ∧ lowerShadow ≤ tolerance * 2 then 0.7
        else 0
      let directionScore : ℚ :=
        if c.IsBullish then 1.0 else if c.IsBearish then 1.0 else 0
      let totalScore := sizeScore * 0.4 + shadowScore * 0.4 + directionScore * 0.2
      let detected := decide (totalScore > 0.7)
      let confidence := min totalScore 1.0
      let direction :=
        if c.IsBullish then "bullish" else if c.IsBearish then "bearish" else "neutral"
      { Pattern := "Marubozu"
        Detected := detected
        Strength := totalScore
        Confidence := confidence
        Position := 0
        Direction := direction
        Description := "光头光脚 - 强烈趋势信号" }

/-- `PatternScorer.ScoreBullishEngulfing` (pattern_scoring.go 285-343); the
window holds the most recent bar first, so `first = cs[1]`, `second = cs[0]`. -/
def ScoreBullishEngulfing (_ps : PatternScorer) (cs : List CandlestickWrapper) :
    PatternResult :=
  match cs with
  | second :: first :: _ =>
    if (!first.IsBearish || !second.IsBullish) = true then notDetected "BullishEngulfing"
    else
      let engulfingScore : ℚ :=
        if second.Open ≤ first.Close ∧ second.Close ≥ first.Open then
          let engulfingRatio := fdiv (second.Close - second.Open) (first.Open - first.Close)
          if gtQ engulfingRatio 1.5 then 1.0
          else if gtQ engulfingRatio 1.2 then 0.8
          else 0.6
        else 0
      let firstBodyRatio := fdiv first.Body (first.High - first.Low)
      let secondBodyRatio := fdiv second.Body (second.High - second.Low)
      let sizeScore : ℚ :=
        if (gtQ firstBodyRatio 0.6 && gtQ secondBodyRatio 0.6) = true then 1.0
        else if (gtQ firstBodyRatio 0.4 && gtQ secondBodyRatio 0.4) = true then 0.7
        else 0
      let volumeScore : ℚ :=
        if second.Volume > first.Volume * 1.2 then 1.0
        else if second.Volume > first.Volume then 0.7
        else 0
      let totalScore := engulfingScore * 0.5 + sizeScore * 0.3 + volumeScore * 0.2
      let detected := decide (totalScore > 0.6)
      let confidence := min totalScore 1.0
      { Pattern := "BullishEngulfing"
        Detected := detected
        Strength := totalScore
        Confidence := confidence
        Position := 0
        Direction := "bullish"
        Description := "看涨吞噬 - 强烈反转信号" }
  | _ => notDetected "BullishEngulfing"

/-- `PatternScorer.ScoreMorningStar` (pattern_scoring.go 346-408); the window
holds the most recent bar first, so `first = cs[2]`, `second = cs[1]`,
`third = cs[0]`. -/
def ScoreMorningStar (_ps : PatternScorer) (cs : List CandlestickWrapper) :
    PatternResult :=
  match cs with
  | third :: second :: first :: _ =>
    let firstScore : ℚ :=
      if first.IsBearish then
        let firstBodyRatio := fdiv first.Body (first.High - first.Low)
        if gtQ firstBodyRatio 0.6 then 1.0
        else if gtQ firstBodyRatio 0.4 then 0.7
        else 0
      else 0
    let secondBodyRatio := fdiv second.Body (second.High - second.Low)
    let secondScore : ℚ :=
      if ltQ secondBodyRatio 0.3 then 1.0
      else if ltQ secondBodyRatio 0.5 then 0.7
      else 0
    let thirdScore : ℚ :=
      if third.IsBullish then
        let thirdBodyRatio := fdiv third.Body (third.High - third.Low)
        if gtQ thirdBodyRatio 0.6 then 1.0
        else if gtQ thirdBodyRatio 0.4 then 0.7
        else 0
      else 0
    let positionScore : ℚ :=
      if second.High < first.Close ∧ third.Close > (first.Open + first.Close) / 2 then 1.0
      else if second.High < first.Close then 0.7
      else 0
    let totalScore :=
      firstScore * 0.3 + secondScore * 0.2 + thirdScore * 0.3 + positionScore * 0.2
    let detected := decide (totalScore > 0.6)
    let confidence := min totalScore 1.0
    { Pattern := "MorningStar"
      Detected := detected
      Strength := totalScore
      Confidence := confidence
      Position := 0
      Direction := "bullish"
      Description := "启明星 - 强烈看涨反转信号" }
  | _ => notDetected "MorningStar"

/-- `PatternScorer.AnalyzeAllPatterns` (pattern_scoring.go 459-480). -/
def AnalyzeAllPatterns (ps : PatternScorer) (cs : List CandlestickWrapper) :
    List PatternResult :=
  let results : List PatternResult := []
  let results :=
    if cs.length ≥ 1 then
      ((results ++ [ScoreHammer ps cs]) ++ [ScoreDoji ps cs]) ++ [ScoreMarubozu ps cs]
    else results
  let results :=
    if cs.length ≥ 2 then results ++ [ScoreBullishEngulfing ps cs] else results
  let results :=
    if cs.length ≥ 3 then results ++ [ScoreMorningStar ps cs] else results
  results

/-- `PatternScorer.GetStrongestPatterns` (pattern_scoring.go 483-494). -/
def GetStrongestPatterns (ps : PatternScorer) (cs : List CandlestickWrapper)
    (minStrength : ℚ) : List PatternResult :=
  let allPatterns := AnalyzeAllPatterns ps cs
  allPatterns.foldl
    (fun strongPatterns pattern =>
      if pattern.Detected = true ∧ pattern.Strength ≥ minStrength then
        strongPatterns ++ [pattern]
      else strongPatterns)
    []

/-- A bar with timestamp 0, for writing example windows. -/
def mkBar (o h l c v : ℚ) : CandlestickWrapper :=
  { Timestamp := 0, Open := o, High := h, Low := l, Close := c, Volume := v }

/-! ## Theorems -/

/-! ### Float and drawdown lemmas -/

theorem fdiv_of_ne {a b : ℚ} (hb : b ≠ 0) : fdiv a b = F64.fin (a / b) := by
  simp [fdiv, hb]

theorem F64.gt_fin (a b : ℚ) : F64.gt (F64.fin a) (F64.fin b) = decide (b < a) := rfl

theorem runningPeak_cons (v0 : ℚ) (t : List ℚ) (i : ℕ) :
    runningPeak (v0 :: t) i = (t.take i).foldl max v0 := by
  simp [runningPeak]

theorem drawdownAt_append_left (l r : List ℚ) (j : ℕ) (hj : j < l.length) :
    drawdownAt (l ++ r) j = drawdownAt l j := by
  have h1 : (l ++ r).take (j + 1) = l.take (j + 1) :=
    List.take_append_of_le_length (by omega)
  have h2 : (l ++ r).getD j 0 = l.getD j 0 := by
    simp [List.getD_eq_getElem?_getD, List.getElem?_append_left hj]
  unfold drawdownAt runningPeak
  rw [h1, h2]

theorem drawdownAt_last (v0 : ℚ) (s : List ℚ) (x : ℚ) :
    drawdownAt (v0 :: (s ++ [x])) (s.length + 1)
      = (max (s.foldl max v0) x - x) / max (s.foldl max v0) x := by
  have h1 : (v0 :: (s ++ [x])).getD (s.length + 1) 0 = x := by
    simp [List.getD_eq_getElem?_getD]
  rw [drawdownAt, h1, runningPeak_cons]
  have h3 : List.take (s.length + 1) (s ++ [x]) = s ++ [x] := by
    apply List.take_of_length_le; simp
  rw [h3]
  simp [List.foldl_append]

theorem drawdownStep_fin (m peak x : ℚ) (hp : 0 < peak) :
    drawdownStep ⟨F64.fin m, F64.fin m, peak⟩ x
      = ⟨F64.fin (max m ((max peak x - x) / max peak x)),
         F64.fin (max m ((max peak x - x) / max peak x)), max peak x⟩ := by
  have hpk : (if x > peak then x else peak) = max peak x := by
    rcases lt_or_le peak x with h | h
    · simp [h, max_eq_right h.le]
    · simp [not_lt.mpr h, max_eq_left h]
  have hne : max peak x ≠ 0 := (lt_of_lt_of_le hp (le_max_left _ _)).ne'
  simp only [drawdownStep, hpk, fdiv_of_ne hne, F64.gt_fin]
  rcases lt_or_le m ((max peak x - x) / max peak x) with h | h
  · simp [h, max_eq_right h.le]
  · simp [not_lt.mpr h, max_eq_left h]

theorem drawdown_loop_inv (v0 : ℚ) (h0 : 0 < v0) (t : List ℚ) :
    ∃ m : ℚ,
      (v0 :: t).foldl drawdownStep ⟨F64.fin 0, F64.fin 0, v0⟩
        = ⟨F64.fin m, F64.fin m, t.foldl max v0⟩ ∧
      0 < t.foldl max v0 ∧
      (∃ i, i ≤ t.length ∧ m = drawdownAt (v0 :: t) i) ∧
      ∀ j, j ≤ t.length → drawdownAt (v0 :: t) j ≤ m := by
  induction t using List.reverseRecOn with
  | nil =>
    refine ⟨0, ?_, by simpa using h0, ⟨0, le_refl _, ?_⟩, ?_⟩
    · rw [List.foldl_cons, List.foldl_nil, drawdownStep_fin 0 v0 v0 h0]
      simp
    · simp [drawdownAt, runningPeak]
    · intro j hj
      have : j = 0 := by simpa using hj
      subst this
      simp [drawdownAt, runningPeak]
  | append_singleton s x ih =>
    obtain ⟨m, hst, hpk, ⟨i, hi, hmi⟩, hub⟩ := ih
    have hcons : v0 :: (s ++ [x]) = (v0 :: s) ++ [x] := rfl
    refine ⟨max m ((max (s.foldl max v0) x - x) / max (s.foldl max v0) x), ?_, ?_, ?_, ?_⟩
    · rw [hcons, List.foldl_append, hst, List.foldl_cons, List.foldl_nil,
        drawdownStep_fin m _ x hpk]
      simp [List.foldl_append]
    · simp only [List.foldl_append, List.foldl_cons, List.foldl_nil]
      exact lt_of_lt_of_le hpk (le_max_left _ _)
    · rcases le_total m ((max (s.foldl max v0) x - x) / max (s.foldl max v0) x) with h | h
      · refine ⟨s.length + 1, by simp, ?_⟩
        rw [max_eq_right h, drawdownAt_last]
      · refine ⟨i, by simp; omega, ?_⟩
        rw [max_eq_left h, hcons, drawdownAt_append_left _ _ _ (by simp; omega)]
        exact hmi
    · intro j hj
      have hj2 : j ≤ s.length + 1 := by simpa using hj
      rcases Nat.lt_or_ge j (s.length + 1) with h | h
      · rw [hcons, drawdownAt_append_left _ _ _ (by simpa using h)]
        exact le_trans (hub j (by omega)) (le_max_left _ _)
      · have : j = s.length + 1 := by omega
        subst this
        rw [drawdownAt_last]
        exact le_max_right _ _

theorem foldl_max_ge_init (x : ℚ) (xs : List ℚ) : x ≤ xs.foldl max x := by
  induction xs generalizing x with
  | nil => exact le_refl _
  | cons y t ih => exact le_trans (le_max_left x y) (ih (max x y))

theorem foldl_max_ge_mem (x : ℚ) (xs : List ℚ) (y : ℚ) (hy : y ∈ xs) :
    y ≤ xs.foldl max x := by
  induction xs generalizing x with
  | nil => simp at hy
  | cons z t ih =>
    rcases List.mem_cons.mp hy with h | h
    · subst h
      exact le_trans (le_max_right x y) (foldl_max_ge_init _ t)
    · exact ih (max x z) h

theorem foldl_max_mem (x : ℚ) (xs : List ℚ) : xs.foldl max x ∈ x :: xs := by
  induction xs generalizing x with
  | nil => simp
  | cons z t ih =>
    have h := ih (max x z)
    rcases List.mem_cons.mp h with h1 | h1
    · rw [List.foldl_cons, h1]
      rcases max_choice x z with h2 | h2 <;> simp [h2]
    · exact List.mem_cons_of_mem _ (List.mem_cons_of_mem _ h1)

/-- The running peak at index `i` is the largest of `v_0 .. v_i`: it bounds
each of them and is one of them. -/
theorem runningPeak_is_max (v : List ℚ) (i : ℕ) (hv : v ≠ []) :
    (∀ y ∈ v.take (i + 1), y ≤ runningPeak v i) ∧ runningPeak v i ∈ v.take (i + 1) := by
  cases v with
  | nil => exact absurd rfl hv
  | cons v0 t =>
    rw [runningPeak_cons]
    simp only [List.take_succ_cons]
    refine ⟨?_, foldl_max_mem _ _⟩
    intro y hy
    rcases List.mem_cons.mp hy with h | h
    · subst h
      exact foldl_max_ge_init _ _
    · exact foldl_max_ge_mem _ _ _ h

theorem drawdown_fold_current_eq_max (l : List ℚ) (st : DrawdownState)
    (h : st.currentDrawdown = st.maxDrawdown) :
    (l.foldl drawdownStep st).currentDrawdown = (l.foldl drawdownStep st).maxDrawdown := by
  induction l generalizing st with
  | nil => exact h
  | cons x t ih =>
    rw [List.foldl_cons]
    apply ih
    simp only [drawdownStep, h]

/-- The second component returned by `CalculateMaxDrawdown` equals the first on
every series. -/
theorem calculateMaxDrawdown_snd_eq_fst (values : List ℚ) :
    (CalculateMaxDrawdown values).2 = (CalculateMaxDrawdown values).1 := by
  cases values with
  | nil => rfl
  | cons v0 t =>
    simp only [CalculateMaxDrawdown]
    exact drawdown_fold_current_eq_max _ _ rfl

theorem ltQ_fin (a c : ℚ) : ltQ (F64.fin a) c = decide (a < c) := rfl

theorem gtQ_fin (a c : ℚ) : gtQ (F64.fin a) c = decide (c < a) := rfl

/-! ### IEEE rounding lemmas -/

theorem binExp_eq (x : ℚ) (e : ℤ) (he : -1022 ≤ e) (h1 : (2 : ℚ) ^ e ≤ |x|)
    (h2 : |x| < (2 : ℚ) ^ (e + 1)) : binExp x = e := by
  have hpos : 0 < |x| := lt_of_lt_of_le (by positivity) h1
  have hb : 1 < (2 : ℕ) := by norm_num
  have hle : e ≤ Int.log 2 |x| := by
    rw [← Int.zpow_le_iff_le_log hb hpos]; exact_mod_cast h1
  have hlt : Int.log 2 |x| < e + 1 := by
    rw [← Int.lt_zpow_iff_log_lt hb hpos]; exact_mod_cast h2
  have : Int.log 2 |x| = e := by omega
  rw [binExp, this]; exact max_eq_left he

theorem roundHalfEven_eq (m : ℚ) (n : ℤ) (h : |m - n| < 1 / 2) : roundHalfEven m = n := by
  rw [abs_lt] at h
  obtain ⟨hlo, hhi⟩ := h
  unfold roundHalfEven
  simp only []
  rcases le_or_lt (n : ℚ) m with hge | hlt
  · have hf : ⌊m⌋ = n := by
      rw [Int.floor_eq_iff]; constructor
      · exact hge
      · linarith
    rw [hf]
    have : m - (n : ℚ) < 1 / 2 := hhi
    rw [if_pos this]
  · have hf : ⌊m⌋ = n - 1 := by
      rw [Int.floor_eq_iff]; push_cast; constructor
      · linarith
      · linarith
    rw [hf]; push_cast
    have h1 : ¬ (m - ((n : ℚ) - 1) < 1 / 2) := by intro h; linarith
    have h2 : 1 / 2 < m - ((n : ℚ) - 1) := by linarith
    rw [if_neg h1, if_pos h2]; ring

theorem roundFin_eq (x : ℚ) (e n : ℤ) (he : -1022 ≤ e) (h1 : (2 : ℚ) ^ e ≤ |x|)
    (h2 : |x| < (2 : ℚ) ^ (e + 1)) (h3 : |x / (2 : ℚ) ^ (e - 52) - n| < 1 / 2) :
    roundFin x = n * (2 : ℚ) ^ (e - 52) := by
  unfold roundFin; simp only []
  rw [binExp_eq x e he h1 h2, roundHalfEven_eq _ n h3]

/-- The float64 nearest to `x`, from the binade `e` of `x` and the integer `n`
nearest to `x / 2 ^ (e - 52)`. -/
theorem roundF64_eq (x v : ℚ) (e n : ℤ) (he : -1022 ≤ e) (he2 : e ≤ 1022)
    (h1 : (2 : ℚ) ^ e ≤ |x|) (h2 : |x| < (2 : ℚ) ^ (e + 1))
    (h3 : |x / (2 : ℚ) ^ (e - 52) - n| < 1 / 2) (hv : v = n * (2 : ℚ) ^ (e - 52)) :
    roundF64 x = F64.fin v := by
  have hlt : |x| < overflowBound := by
    have h4 : (2 : ℚ) ^ (e + 1) ≤ (2 : ℚ) ^ (1023 : ℤ) :=
      zpow_le_zpow_right₀ (by norm_num) (by omega)
    have h5 : (2 : ℚ) ^ (1023 : ℤ) < overflowBound := by
      unfold overflowBound
      norm_num
    exact lt_of_lt_of_le h2 h4 |>.trans h5
  unfold roundF64
  rw [if_neg (not_le.mpr hlt), roundFin_eq x e n he h1 h2 h3, hv]

theorem roundF64_zero : roundF64 0 = F64.fin 0 := by
  unfold roundF64 roundFin roundHalfEven overflowBound
  norm_num

theorem roundF64_overflow (x : ℚ) (h : overflowBound ≤ x) : roundF64 x = F64.posInf := by
  have hpos : 0 < x := lt_of_lt_of_le (by unfold overflowBound; norm_num) h
  unfold roundF64
  rw [abs_of_pos hpos, if_pos h, if_pos hpos]

theorem roundF64_of_lt (x : ℚ) (h : |x| < overflowBound) :
    roundF64 x = F64.fin (roundFin x) := by
  unfold roundF64
  rw [if_neg (not_le.mpr h)]

/-! ### Drawdown claims -/

/-- C1 (evaluation at the failing input): on the series 100, 120, 90, 110 the
second component returned by `CalculateMaxDrawdown` is 0.25, the largest
drawdown of the series, whereas the drawdown at the last point is 10/120 = 1/12:
the loop only ever raises `currentDrawdown`, so it ends equal to `maxDrawdown`. -/
theorem calculateMaxDrawdown_current_at_example :
    (CalculateMaxDrawdown [100, 120, 90, 110]).2 = F64.fin (1 / 4) ∧
    drawdownAt [100, 120, 90, 110] 3 = 1 / 12 ∧
    (CalculateMaxDrawdown [100, 120, 90, 110]).2 ≠ F64.fin (drawdownAt [100, 120, 90, 110] 3) := by
  have h1 : (CalculateMaxDrawdown [100, 120, 90, 110]).2 = F64.fin (1 / 4) := by
    simp [CalculateMaxDrawdown, drawdownStep, fdiv, F64.gt, F64.lt]
    norm_num
  have h2 : drawdownAt [100, 120, 90, 110] 3 = 1 / 12 := by
    simp [drawdownAt, runningPeak]
    norm_num
  refine ⟨h1, h2, ?_⟩
  rw [h1, h2]
  intro h
  injection h with h
  norm_num at h

/-- C2: for a non-empty series `v0 :: t` of positive values the first component
returned by `CalculateMaxDrawdown` is the maximum over all indices `i` of
`(p_i - v_i) / p_i` with `p_i` the running peak: it is the drawdown at some
index and no index has a larger one.  For 100, 120, 90, 110 it is 0.25, and
for the empty series the result is (0, 0). -/
theorem calculateMaxDrawdown_fst_is_max (v0 : ℚ) (t : List ℚ)
    (hpos : ∀ x ∈ v0 :: t, 0 < x) :
    (∃ i, i < (v0 :: t).length ∧
        (CalculateMaxDrawdown (v0 :: t)).1 = F64.fin (drawdownAt (v0 :: t) i) ∧
        ∀ j, j < (v0 :: t).length → drawdownAt (v0 :: t) j ≤ drawdownAt (v0 :: t) i) ∧
    (CalculateMaxDrawdown [100, 120, 90, 110]).1 = F64.fin (1 / 4) ∧
    CalculateMaxDrawdown [] = (F64.fin 0, F64.fin 0) := by
  refine ⟨?_, ?_, rfl⟩
  · obtain ⟨m, hst, -, ⟨i, hi, hmi⟩, hub⟩ :=
      drawdown_loop_inv v0 (hpos v0 (List.mem_cons_self _ _)) t
    refine ⟨i, by simp; omega, ?_, ?_⟩
    · simp only [CalculateMaxDrawdown]
      rw [hst, hmi]
    · intro j hj
      rw [← hmi]
      exact hub j (by simp at hj; omega)
  · simp [CalculateMaxDrawdown, drawdownStep, fdiv, F64.gt, F64.lt]
    norm_num

/-- Witness for C2 at the series 100, 120, 90, 110: the hypothesis holds there
and the maximum drawdown is attained at some index. -/
theorem calculateMaxDrawdown_fst_is_max_witness :
    (∀ x ∈ [(100 : ℚ), 120, 90, 110], 0 < x) ∧
    ∃ i, i < [(100 : ℚ), 120, 90, 110].length ∧
      (CalculateMaxDrawdown [100, 120, 90, 110]).1
        = F64.fin (drawdownAt [100, 120, 90, 110] i) ∧
      ∀ j, j < [(100 : ℚ), 120, 90, 110].length →
        drawdownAt [100, 120, 90, 110] j ≤ drawdownAt [100, 120, 90, 110] i :=
  ⟨by simp, (calculateMaxDrawdown_fst_is_max 100 [120, 90, 110] (by simp)).1⟩

/-! ### Kelly sizing, volatility and value at risk -/

theorem simpleReturns_cons_cons (a b : ℚ) (rest : List ℚ) :
    simpleReturns (a :: b :: rest) = (b - a) / a :: simpleReturns (b :: rest) := by
  simp [simpleReturns]

theorem simpleReturns_length (prices : List ℚ) :
    (simpleReturns prices).length = prices.length - 1 := by
  simp [simpleReturns]

theorem dailyReturns_eq (prices : List ℚ) :
    dailyReturns prices
      = if ∀ p ∈ prices.dropLast, p ≠ 0 then some (simpleReturns prices) else none := by
  induction prices with
  | nil => simp [dailyReturns, simpleReturns]
  | cons a t ih =>
    cases t with
    | nil => simp [dailyReturns, simpleReturns]
    | cons b rest =>
      rw [dailyReturns, ih, simpleReturns_cons_cons]
      by_cases ha : a = 0
      · simp [cdiv, ha]
      · by_cases hr : ∀ p ∈ (b :: rest).dropLast, p ≠ 0
        · have : ∀ p ∈ (a :: b :: rest).dropLast, p ≠ 0 := by
            intro p hp
            rw [List.dropLast_cons₂] at hp
            rcases List.mem_cons.mp hp with h | h
            · exact h ▸ ha
            · exact hr p h
          rw [if_pos hr, if_pos this]
          simp [cdiv, ha]
        · have : ¬ ∀ p ∈ (a :: b :: rest).dropLast, p ≠ 0 := by
            intro h
            apply hr
            intro p hp
            apply h
            rw [List.dropLast_cons₂]
            exact List.mem_cons_of_mem _ hp
          rw [if_neg hr, if_neg this]
          simp [cdiv, ha]

theorem foldl_add_eq_sum (xs : List ℚ) (f : ℚ → ℚ) (init : ℚ) :
    xs.foldl (fun acc r => acc + f r) init = init + (xs.map f).sum := by
  induction xs generalizing init with
  | nil => simp
  | cons x t ih => simp [ih, add_assoc]

theorem returnsVariance_eq (rs : List ℚ) :
    returnsVariance rs
      = if 2 ≤ rs.length then
          some ((rs.map (fun x => (x - rs.sum / (rs.length : ℚ)) ^ 2)).sum
            / ((rs.length : ℚ) - 1))
        else none := by
  have hsum : rs.foldl (fun acc r => acc + r) 0 = rs.sum := by
    have := foldl_add_eq_sum rs id 0
    simpa using this
  unfold returnsVariance
  rw [hsum]
  rcases Nat.lt_or_ge rs.length 2 with h | h
  · have h2 : ¬ 2 ≤ rs.length := by omega
    rw [if_neg h2]
    by_cases h0 : rs.length = 0
    · simp [cdiv, h0]
    · have h1 : rs.length = 1 := by omega
      simp [cdiv, h1]
  · rw [if_pos h]
    have hn : (rs.length : ℚ) ≠ 0 := by
      have : rs.length ≠ 0 := by omega
      exact_mod_cast this
    have hn1 : (((rs.length : ℤ) - 1 : ℤ) : ℚ) ≠ 0 := by
      have : ((rs.length : ℤ) - 1 : ℤ) ≠ 0 := by omega
      exact_mod_cast this
    simp only [cdiv, hn, hn1, if_false, Option.bind_eq_bind, Option.some_bind]
    rw [foldl_add_eq_sum rs (fun r => (r - rs.sum / (rs.length : ℚ)) ^ 2) 0]
    simp

theorem volatility_core_eq (prices : List ℚ) (h2 : 2 ≤ prices.length) :
    (dailyReturns prices).bind returnsVariance
      = if (∀ p ∈ prices.dropLast, p ≠ 0) ∧ 3 ≤ prices.length then
          some ((( simpleReturns prices).map
              (fun x => (x - (simpleReturns prices).sum
                / ((simpleReturns prices).length : ℚ)) ^ 2)).sum
            / (((simpleReturns prices).length : ℚ) - 1))
        else none := by
  rw [dailyReturns_eq]
  by_cases hz : ∀ p ∈ prices.dropLast, p ≠ 0
  · rw [if_pos hz, Option.some_bind, returnsVariance_eq, simpleReturns_length]
    by_cases h3 : 3 ≤ prices.length
    · rw [if_pos (by omega), if_pos ⟨hz, h3⟩]
    · rw [if_neg (by omega), if_neg (fun h => h3 h.2)]
  · rw [if_neg hz, if_neg (fun h => hz h.1)]
    rfl

/-- The two clamps of `CalculatePositionSize` bring every number and both
infinities into [0, 0.25] and pass NaN on. -/
theorem kelly_clamp_cases (k : F64) :
    (if ltQ (if gtQ k 0.25 then F64.fin 0.25 else k) 0 then F64.fin 0
      else (if gtQ k 0.25 then F64.fin 0.25 else k)) = F64.nan ∨
    ∃ q : ℚ, 0 ≤ q ∧ q ≤ 0.25 ∧
      (if ltQ (if gtQ k 0.25 then F64.fin 0.25 else k) 0 then F64.fin 0
        else (if gtQ k 0.25 then F64.fin 0.25 else k)) = F64.fin q := by
  cases k with
  | fin a =>
    right
    rw [gtQ_fin]
    by_cases h1 : (0.25 : ℚ) < a
    · refine ⟨0.25, by norm_num, le_refl _, ?_⟩
      simp only [h1, decide_True, if_true, ltQ_fin]
      norm_num
    · by_cases h2 : a < 0
      · refine ⟨0, le_refl _, by norm_num, ?_⟩
        simp [h1, h2, ltQ_fin]
      · refine ⟨a, not_lt.mp h2, not_lt.mp h1, ?_⟩
        simp [h1, h2, ltQ_fin]
  | posInf =>
    right
    refine ⟨0.25, by norm_num, le_refl _, ?_⟩
    have : gtQ F64.posInf 0.25 = true := rfl
    simp only [this, if_true, ltQ_fin]
    norm_num
  | negInf =>
    right
    refine ⟨0, le_refl _, by norm_num, ?_⟩
    have h1 : gtQ F64.negInf 0.25 = false := rfl
    have h2 : ltQ F64.negInf 0 = true := rfl
    simp [h1, h2]
  | nan =>
    left
    have h1 : gtQ F64.nan 0.25 = false := rfl
    have h2 : ltQ F64.nan 0 = false := rfl
    simp [h1, h2]

theorem F64.div_fin (a b : ℚ) (hb : b ≠ 0) :
    F64.div (F64.fin a) (F64.fin b) = roundF64 (a / b) := by
  simp only [F64.div]
  rw [if_neg hb]

theorem F64.mul_posInf_fin (b : ℚ) (hb : 0 < b) :
    F64.mul F64.posInf (F64.fin b) = F64.posInf := by
  simp only [F64.mul]
  rw [if_neg (ne_of_gt hb), if_pos hb]

/-- Once the guard has passed, `CalculatePositionSize` is the clamped float64
Kelly fraction. -/
theorem calculatePositionSize_of_pos (winRate avgWin avgLoss : ℚ) (hw : 0 < avgWin)
    (hl : 0 < avgLoss) :
    CalculatePositionSize winRate avgWin avgLoss
      = (if ltQ (if gtQ (F64.div (F64.sub (F64.mul (roundF64 (avgWin / avgLoss))
              (F64.fin winRate)) (roundF64 (1 - winRate))) (roundF64 (avgWin / avgLoss))) 0.25
            then F64.fin 0.25
            else F64.div (F64.sub (F64.mul (roundF64 (avgWin / avgLoss))
              (F64.fin winRate)) (roundF64 (1 - winRate))) (roundF64 (avgWin / avgLoss))) 0
          then F64.fin 0
          else (if gtQ (F64.div (F64.sub (F64.mul (roundF64 (avgWin / avgLoss))
              (F64.fin winRate)) (roundF64 (1 - winRate))) (roundF64 (avgWin / avgLoss))) 0.25
            then F64.fin 0.25
            else F64.div (F64.sub (F64.mul (roundF64 (avgWin / avgLoss))
              (F64.fin winRate)) (roundF64 (1 - winRate))) (roundF64 (avgWin / avgLoss)))) := by
  have hg : ¬ (avgWin ≤ 0 ∨ avgLoss ≤ 0) := by
    rintro (h | h)
    · exact absurd hw (not_lt.mpr h)
    · exact absurd hl (not_lt.mpr h)
  unfold CalculatePositionSize
  rw [if_neg hg, F64.div_fin _ _ (ne_of_gt hl)]
  rfl

/-- An overflowing win/loss ratio makes the Kelly fraction Inf/Inf = NaN, which
both clamps pass on. -/
theorem calculatePositionSize_of_overflow (winRate avgWin avgLoss : ℚ) (hw : 0 < avgWin)
    (hl : 0 < avgLoss) (hp : 0 < winRate) (hq : |1 - winRate| < overflowBound)
    (hb : overflowBound ≤ avgWin / avgLoss) :
    CalculatePositionSize winRate avgWin avgLoss = F64.nan := by
  rw [calculatePositionSize_of_pos _ _ _ hw hl, roundF64_overflow _ hb, roundF64_of_lt _ hq,
    F64.mul_posInf_fin _ hp]
  rfl

/-- C3 (evaluation at the failing input): for winRate 0.5, avgWin 2^1000 and
avgLoss 2^-1000, and likewise for 0.6, 1e308 and 1e-308, all finite and
positive, `b = avgWin / avgLoss` overflows to +Inf, `b*p - q` is +Inf and
`(b*p - q) / b` is Inf/Inf = NaN.  NaN is neither `> 0.25` nor `< 0`, so both
clamps pass it on and `CalculatePositionSize` returns NaN, not a number in
[0, 0.25].  Every result is NaN or lies in [0, 0.25]; it is 0 when
`avgWin <= 0` or `avgLoss <= 0`, and `CalculatePositionSize 0.6 2.0 1.0 = 0.25`. -/
theorem calculatePositionSize_overflow_nan :
    CalculatePositionSize 0.5 (2 ^ 1000) (1 / 2 ^ 1000) = F64.nan ∧
    CalculatePositionSize 0.6 (10 ^ 308) (1 / 10 ^ 308) = F64.nan ∧
    (∀ winRate avgWin avgLoss : ℚ,
      CalculatePositionSize winRate avgWin avgLoss = F64.nan ∨
      ∃ q : ℚ, 0 ≤ q ∧ q ≤ 0.25 ∧
        CalculatePositionSize winRate avgWin avgLoss = F64.fin q) ∧
    (∀ winRate avgWin avgLoss : ℚ, avgWin ≤ 0 ∨ avgLoss ≤ 0 →
      CalculatePositionSize winRate avgWin avgLoss = F64.fin 0) ∧
    CalculatePositionSize 0.6 2 1 = F64.fin 0.25 := by
  refine ⟨?_, ?_, ?_, ?_, ?_⟩
  · exact calculatePositionSize_of_overflow _ _ _ (by norm_num) (by norm_num) (by norm_num)
      (by unfold overflowBound; norm_num [abs_of_pos])
      (by unfold overflowBound; norm_num)
  · exact calculatePositionSize_of_overflow _ _ _ (by norm_num) (by norm_num) (by norm_num)
      (by unfold overflowBound; norm_num [abs_of_pos])
      (by unfold overflowBound; norm_num)
  · intro winRate avgWin avgLoss
    unfold CalculatePositionSize
    by_cases hg : avgWin ≤ 0 ∨ avgLoss ≤ 0
    · rw [if_pos hg]
      exact Or.inr ⟨0, le_refl _, by norm_num, rfl⟩
    · rw [if_neg hg]
      exact kelly_clamp_cases _
  · intro winRate avgWin avgLoss hg
    unfold CalculatePositionSize
    rw [if_pos hg]
  · have hb : roundF64 ((2 : ℚ) / 1) = F64.fin 2 :=
      roundF64_eq _ _ 1 4503599627370496 (by norm_num) (by norm_num)
        (by norm_num [abs_of_pos]) (by norm_num [abs_of_pos]) (by norm_num [abs_lt])
        (by norm_num)
    have hq : roundF64 ((1 : ℚ) - 0.6) = F64.fin (3602879701896397 / 2 ^ 53) :=
      roundF64_eq _ _ (-2) 7205759403792794 (by norm_num) (by norm_num)
        (by norm_num [abs_of_pos]) (by norm_num [abs_of_pos]) (by norm_num [abs_lt])
        (by norm_num)
    have hm : F64.mul (F64.fin 2) (F64.fin 0.6) = F64.fin (5404319552844595 / 2 ^ 52) :=
      roundF64_eq ((2 : ℚ) * 0.6) _ 0 5404319552844595 (by norm_num) (by norm_num)
        (by norm_num [abs_of_pos]) (by norm_num [abs_of_pos]) (by norm_num [abs_lt])
        (by norm_num)
    have hs : F64.sub (F64.fin (5404319552844595 / 2 ^ 52))
        (F64.fin (3602879701896397 / 2 ^ 53)) = F64.fin (7205759403792793 / 2 ^ 53) :=
      roundF64_eq ((5404319552844595 : ℚ) / 2 ^ 52 - 3602879701896397 / 2 ^ 53) _ (-1)
        7205759403792793 (by norm_num) (by norm_num)
        (by norm_num [abs_of_pos]) (by norm_num [abs_of_pos]) (by norm_num [abs_lt])
        (by norm_num)
    have hd : F64.div (F64.fin (7205759403792793 / 2 ^ 53)) (F64.fin 2)
        = F64.fin (7205759403792793 / 2 ^ 54) := by
      rw [F64.div_fin _ _ (by norm_num)]
      exact roundF64_eq _ _ (-2) 7205759403792793 (by norm_num) (by norm_num)
        (by norm_num [abs_of_pos]) (by norm_num [abs_of_pos]) (by norm_num [abs_lt])
        (by norm_num)
    rw [calculatePositionSize_of_pos _ _ _ (by norm_num) (by norm_num), hb, hq, hm, hs, hd,
      gtQ_fin]
    norm_num [ltQ_fin]

theorem sampleStd_eq (sqrt : ℚ → ℚ) (xs : List ℚ) :
    sampleStd sqrt xs
      = sqrt ((xs.map (fun x => (x - xs.sum / (xs.length : ℚ)) ^ 2)).sum
          / ((xs.length : ℚ) - 1)) := rfl

/-- The value of `CalculateVolatility` by cases on the number of prices: the
sample standard deviation formula holds from three prices on, and two prices
leave the divisor `len(returns) - 1` at zero. -/
theorem calculateVolatility_cases (sqrt : ℚ → ℚ) (prices : List ℚ) :
    CalculateVolatility sqrt prices
      = if prices.length < 2 then some 0
        else if (∀ p ∈ prices.dropLast, p ≠ 0) ∧ 3 ≤ prices.length then
          some (sqrt 252 * sampleStd sqrt (simpleReturns prices))
        else none := by
  unfold CalculateVolatility
  by_cases h : prices.length < 2
  · rw [if_pos h, if_pos h]
  · rw [if_neg h, if_neg h]
    have hcore := volatility_core_eq prices (by omega)
    by_cases hc : (∀ p ∈ prices.dropLast, p ≠ 0) ∧ 3 ≤ prices.length
    · rw [if_pos hc] at hcore
      rw [if_pos hc, sampleStd_eq]
      obtain ⟨rs, hrs, hv⟩ := Option.bind_eq_some.mp hcore
      simp only [hrs, hv, Option.bind_eq_bind, Option.some_bind, Option.pure_def, mul_comm]
    · rw [if_neg hc] at hcore
      rw [if_neg hc]
      cases hd : dailyReturns prices with
      | none => simp
      | some rs =>
        have : returnsVariance rs = none := by
          rw [hd] at hcore
          simpa using hcore
        simp [this]

/-- The value of `CalculateVaR` by cases on the number of prices, and its
linearity in `TotalValue`. -/
theorem calculateVaR_cases (sqrt : ℚ → ℚ) (rm : RiskManager) (prices : List ℚ)
    (confidence k : ℚ) :
    (CalculateVaR sqrt rm prices confidence
      = if prices.length < 2 then some 0
        else if (∀ p ∈ prices.dropLast, p ≠ 0) ∧ 3 ≤ prices.length then
          some (rm.portfolio.TotalValue * sampleStd sqrt (simpleReturns prices)
            * (if confidence = 0.90 then 1.282
               else if confidence = 0.95 then 1.645
               else if confidence = 0.99 then 2.326
               else 1.645))
        else none) ∧
    CalculateVaR sqrt
        { rm with portfolio :=
            { rm.portfolio with TotalValue := k * rm.portfolio.TotalValue } }
        prices confidence
      = (CalculateVaR sqrt rm prices confidence).map (fun x => k * x) := by
  have key : ∀ rm0 : RiskManager, CalculateVaR sqrt rm0 prices confidence
      = if prices.length < 2 then some 0
        else if (∀ p ∈ prices.dropLast, p ≠ 0) ∧ 3 ≤ prices.length then
          some (rm0.portfolio.TotalValue * sampleStd sqrt (simpleReturns prices)
            * zScore confidence)
        else none := by
    intro rm0
    unfold CalculateVaR
    by_cases h : prices.length < 2
    · rw [if_pos h, if_pos h]
    · rw [if_neg h, if_neg h]
      have hcore := volatility_core_eq prices (by omega)
      by_cases hc : (∀ p ∈ prices.dropLast, p ≠ 0) ∧ 3 ≤ prices.length
      · rw [if_pos hc] at hcore
        rw [if_pos hc, sampleStd_eq]
        obtain ⟨rs, hrs, hv⟩ := Option.bind_eq_some.mp hcore
        simp only [hrs, hv, Option.bind_eq_bind, Option.some_bind, Option.pure_def]
      · rw [if_neg hc] at hcore
        rw [if_neg hc]
        cases hd : dailyReturns prices with
        | none => simp
        | some rs =>
          have : returnsVariance rs = none := by
            rw [hd] at hcore
            simpa using hcore
          simp [this]
  refine ⟨?_, ?_⟩
  · rw [key rm]
    rfl
  · rw [key, key rm]
    by_cases h : prices.length < 2
    · simp [h]
    · by_cases hc : (∀ p ∈ prices.dropLast, p ≠ 0) ∧ 3 ≤ prices.length
      · simp only [if_neg h, if_pos hc, Option.map_some', mul_assoc]
      · simp only [if_neg h, if_neg hc, Option.map_none']

/-! ### Volatility and value at risk at two prices -/

/-- C5 (evaluation at the failing input): the two prices 50 and 55 are "at
least 2 prices" and give the single return 0.1; the variance loop divides by
`len(returns) - 1 = 0` and `CalculateVolatility` returns NaN (`none`), no
number at all, where the sample standard deviation of a single return is
claimed.  With fewer than 2 prices the result is 0, and from three prices on,
no previous price zero, it is `sqrt(252)` times the sample standard deviation
(divisor `n - 1`) of the simple returns, as for the prices 50, 55, 44. -/
theorem calculateVolatility_two_prices_no_std (sqrt : ℚ → ℚ) :
    CalculateVolatility sqrt [50, 55] = none ∧
    (∀ v : ℚ, CalculateVolatility sqrt [50, 55] ≠ some v) ∧
    (∀ prices : List ℚ, prices.length < 2 → CalculateVolatility sqrt prices = some 0) ∧
    (∀ prices : List ℚ, 3 ≤ prices.length → (∀ p ∈ prices.dropLast, p ≠ 0) →
      CalculateVolatility sqrt prices
        = some (sqrt 252 * sampleStd sqrt (simpleReturns prices))) ∧
    CalculateVolatility sqrt [50, 55, 44]
      = some (sqrt 252 * sampleStd sqrt [1 / 10, -1 / 5]) := by
  have h2 : CalculateVolatility sqrt [50, 55] = none := by
    rw [calculateVolatility_cases, if_neg (by simp), if_neg (by simp)]
  have h3 : ∀ prices : List ℚ, 3 ≤ prices.length → (∀ p ∈ prices.dropLast, p ≠ 0) →
      CalculateVolatility sqrt prices
        = some (sqrt 252 * sampleStd sqrt (simpleReturns prices)) := by
    intro prices hlen hz
    rw [calculateVolatility_cases, if_neg (by omega), if_pos ⟨hz, hlen⟩]
  refine ⟨h2, ?_, ?_, h3, ?_⟩
  · intro v hv
    rw [h2] at hv
    exact absurd hv (by simp)
  · intro prices hlen
    rw [calculateVolatility_cases, if_pos hlen]
  · rw [h3 [50, 55, 44] (by simp) (by simp)]
    have : simpleReturns [50, 55, 44] = [1 / 10, -1 / 5] := by
      simp only [simpleReturns, List.tail, List.zipWith]
      norm_num
    rw [this]

/-- C4 (evaluation at the failing input): the two prices 100 and 110 are "at
least 2 prices" and give a single return; the variance loop divides by
`len(returns) - 1 = 0` and `CalculateVaR` returns NaN (`none`) for every
portfolio value and confidence, no number at all, where
`TotalValue * s * z` is claimed.  With fewer than 2 prices the result is 0, and
from three prices on, no previous price zero, it is `TotalValue * s * z` with
`s` the sample standard deviation (divisor `n - 1`) of the simple returns and
`z` = 1.282, 1.645, 2.326 for confidence 0.90, 0.95, 0.99 and 1.645 otherwise. -/
theorem calculateVaR_two_prices_nan (sqrt : ℚ → ℚ) (rm : RiskManager) :
    (∀ confidence : ℚ, CalculateVaR sqrt rm [100, 110] confidence = none) ∧
    (∀ v : ℚ, CalculateVaR sqrt rm [100, 110] 0.95 ≠ some v) ∧
    (∀ (prices : List ℚ) (confidence : ℚ), prices.length < 2 →
      CalculateVaR sqrt rm prices confidence = some 0) ∧
    (∀ (prices : List ℚ) (confidence : ℚ), 3 ≤ prices.length →
      (∀ p ∈ prices.dropLast, p ≠ 0) →
      CalculateVaR sqrt rm prices confidence
        = some (rm.portfolio.TotalValue * sampleStd sqrt (simpleReturns prices)
            * (if confidence = 0.90 then 1.282
               else if confidence = 0.95 then 1.645
               else if confidence = 0.99 then 2.326
               else 1.645))) := by
  have h2 : ∀ confidence : ℚ, CalculateVaR sqrt rm [100, 110] confidence = none := by
    intro confidence
    rw [(calculateVaR_cases sqrt rm [100, 110] confidence 1).1, if_neg (by simp),
      if_neg (by simp)]
  refine ⟨h2, ?_, ?_, ?_⟩
  · intro v hv
    rw [h2] at hv
    exact absurd hv (by simp)
  · intro prices confidence hlen
    rw [(calculateVaR_cases sqrt rm prices confidence 1).1, if_pos hlen]
  · intro prices confidence hlen hz
    rw [(calculateVaR_cases sqrt rm prices confidence 1).1, if_neg (by omega),
      if_pos ⟨hz, hlen⟩]

/-! ### Pattern scorer: confidence and bounds -/

theorem weighted_sum_bounds {a b c d e w1 w2 w3 w4 w5 : ℚ}
    (ha : 0 ≤ a ∧ a ≤ 1) (hb : 0 ≤ b ∧ b ≤ 1) (hc : 0 ≤ c ∧ c ≤ 1)
    (hd : 0 ≤ d ∧ d ≤ 1) (he : 0 ≤ e ∧ e ≤ 1)
    (h1 : 0 ≤ w1) (h2 : 0 ≤ w2) (h3 : 0 ≤ w3) (h4 : 0 ≤ w4) (h5 : 0 ≤ w5)
    (hs : w1 + w2 + w3 + w4 + w5 = 1) :
    0 ≤ a * w1 + b * w2 + c * w3 + d * w4 + e * w5 ∧
    a * w1 + b * w2 + c * w3 + d * w4 + e * w5 ≤ 1 := by
  have p1 := mul_nonneg ha.1 h1
  have p2 := mul_nonneg hb.1 h2
  have p3 := mul_nonneg hc.1 h3
  have p4 := mul_nonneg hd.1 h4
  have p5 := mul_nonneg he.1 h5
  have q1 := mul_le_mul_of_nonneg_right ha.2 h1
  have q2 := mul_le_mul_of_nonneg_right hb.2 h2
  have q3 := mul_le_mul_of_nonneg_right hc.2 h3
  have q4 := mul_le_mul_of_nonneg_right hd.2 h4
  have q5 := mul_le_mul_of_nonneg_right he.2 h5
  constructor <;> linarith

theorem scoreHammer_strength_bounds (ps : PatternScorer) (cs : List CandlestickWrapper)
    (h1 : 0 ≤ ps.config.ShapeWeight) (h2 : 0 ≤ ps.config.SizeWeight)
    (h3 : 0 ≤ ps.config.VolumeWeight) (h4 : 0 ≤ ps.config.TrendWeight)
    (h5 : 0 ≤ ps.config.ContextWeight)
    (hs : ps.config.ShapeWeight + ps.config.SizeWeight + ps.config.VolumeWeight
      + ps.config.TrendWeight + ps.config.ContextWeight = 1) :
    0 ≤ (ScoreHammer ps cs).Strength ∧ (ScoreHammer ps cs).Strength ≤ 1 := by
  cases cs with
  | nil => simp [ScoreHammer, notDetected]
  | cons c rest =>
    by_cases hg : c.Body = 0 ∨ c.High - c.Low = 0
    · simp [ScoreHammer, notDetected, hg]
    · have : ∃ a b c' d e : ℚ,
          (ScoreHammer ps (c :: rest)).Strength
            = a * ps.config.ShapeWeight + b * ps.config.SizeWeight
              + c' * ps.config.VolumeWeight + d * ps.config.TrendWeight
              + e * ps.config.ContextWeight ∧
          (0 ≤ a ∧ a ≤ 1) ∧ (0 ≤ b ∧ b ≤ 1) ∧ (0 ≤ c' ∧ c' ≤ 1) ∧
          (0 ≤ d ∧ d ≤ 1) ∧ (0 ≤ e ∧ e ≤ 1) := by
        simp only [ScoreHammer, if_neg hg]
        refine ⟨_, _, _, _, _, rfl, ?_, ?_, ?_, ?_, ?_⟩
        · split_ifs <;> norm_num
        · split_ifs <;> norm_num
        · split_ifs <;> norm_num
        · split_ifs <;> norm_num
        · split_ifs <;> norm_num
      obtain ⟨a, b, c', d, e, heq, ha, hb, hc, hd, he⟩ := this
      rw [heq]
      exact weighted_sum_bounds ha hb hc hd he h1 h2 h3 h4 h5 hs

theorem notDetected_confidence (name : String) :
    (notDetected name).Confidence = min (notDetected name).Strength 1 := by
  simp [notDetected]

theorem scoreHammer_confidence (ps : PatternScorer) (cs : List CandlestickWrapper) :
    (ScoreHammer ps cs).Confidence = min (ScoreHammer ps cs).Strength 1 := by
  cases cs with
  | nil => exact notDetected_confidence _
  | cons c rest =>
    by_cases hg : c.Body = 0 ∨ c.High - c.Low = 0
    · simp only [ScoreHammer, if_pos hg]
      exact notDetected_confidence _
    · simp only [ScoreHammer, if_neg hg]
      norm_num

theorem scoreDoji_confidence (ps : PatternScorer) (cs : List CandlestickWrapper) :
    (ScoreDoji ps cs).Confidence = min (ScoreDoji ps cs).Strength 1 := by
  cases cs with
  | nil => exact notDetected_confidence _
  | cons c rest =>
    by_cases hg : c.High - c.Low = 0
    · simp only [ScoreDoji, if_pos hg]
      exact notDetected_confidence _
    · simp only [ScoreDoji, if_neg hg]
      norm_num

theorem scoreMarubozu_confidence (ps : PatternScorer) (cs : List CandlestickWrapper) :
    (ScoreMarubozu ps cs).Confidence = min (ScoreMarubozu ps cs).Strength 1 := by
  cases cs with
  | nil => exact notDetected_confidence _
  | cons c rest =>
    by_cases hg : c.High - c.Low = 0
    · simp only [ScoreMarubozu, if_pos hg]
      exact notDetected_confidence _
    · simp only [ScoreMarubozu, if_neg hg]
      norm_num

theorem scoreBullishEngulfing_confidence (ps : PatternScorer)
    (cs : List CandlestickWrapper) :
    (ScoreBullishEngulfing ps cs).Confidence
      = min (ScoreBullishEngulfing ps cs).Strength 1 := by
  match cs with
  | [] => exact notDetected_confidence _
  | [_] => exact notDetected_confidence _
  | second :: first :: rest =>
    by_cases hg : (!first.IsBearish || !second.IsBullish) = true
    · simp only [ScoreBullishEngulfing, if_pos hg]
      exact notDetected_confidence _
    · simp only [ScoreBullishEngulfing, if_neg hg]
      norm_num

theorem scoreMorningStar_confidence (ps : PatternScorer) (cs : List CandlestickWrapper) :
    (ScoreMorningStar ps cs).Confidence = min (ScoreMorningStar ps cs).Strength 1 := by
  match cs with
  | [] => exact notDetected_confidence _
  | [_] => exact notDetected_confidence _
  | [_, _] => exact notDetected_confidence _
  | third :: second :: first :: rest =>
    simp only [ScoreMorningStar]
    norm_num

theorem scoreDoji_strength_bounds (ps : PatternScorer) (cs : List CandlestickWrapper) :
    0 ≤ (ScoreDoji ps cs).Strength ∧ (ScoreDoji ps cs).Strength ≤ 1 := by
  cases cs with
  | nil => simp [ScoreDoji, notDetected]
  | cons c rest =>
    by_cases hg : c.High - c.Low = 0
    · simp [ScoreDoji, notDetected, hg]
    · simp only [ScoreDoji, if_neg hg]
      split_ifs <;> norm_num

theorem scoreMarubozu_strength_bounds (ps : PatternScorer) (cs : List CandlestickWrapper) :
    0 ≤ (ScoreMarubozu ps cs).Strength ∧ (ScoreMarubozu ps cs).Strength ≤ 1 := by
  cases cs with
  | nil => simp [ScoreMarubozu, notDetected]
  | cons c rest =>
    by_cases hg : c.High - c.Low = 0
    · simp [ScoreMarubozu, notDetected, hg]
    · simp only [ScoreMarubozu, if_neg hg]
      split_ifs <;> norm_num

theorem scoreBullishEngulfing_strength_bounds (ps : PatternScorer)
    (cs : List CandlestickWrapper) :
    0 ≤ (ScoreBullishEngulfing ps cs).Strength ∧
    (ScoreBullishEngulfing ps cs).Strength ≤ 1 := by
  match cs with
  | [] => simp [ScoreBullishEngulfing, notDetected]
  | [_] => simp [ScoreBullishEngulfing, notDetected]
  | second :: first :: rest =>
    by_cases hg : (!first.IsBearish || !second.IsBullish) = true
    · simp only [ScoreBullishEngulfing, if_pos hg]
      simp [notDetected]
    · simp only [ScoreBullishEngulfing, if_neg hg]
      split_ifs <;> norm_num

theorem scoreMorningStar_strength_bounds (ps : PatternScorer)
    (cs : List CandlestickWrapper) :
    0 ≤ (ScoreMorningStar ps cs).Strength ∧ (ScoreMorningStar ps cs).Strength ≤ 1 := by
  match cs with
  | [] => simp [ScoreMorningStar, notDetected]
  | [_] => simp [ScoreMorningStar, notDetected]
  | [_, _] => simp [ScoreMorningStar, notDetected]
  | third :: second :: first :: rest =>
    simp only [ScoreMorningStar]
    split_ifs <;> norm_num

theorem confidence_bounds_of_strength (r : PatternResult)
    (hc : r.Confidence = min r.Strength 1) (hs : 0 ≤ r.Strength ∧ r.Strength ≤ 1) :
    0 ≤ r.Strength ∧ r.Strength ≤ 1 ∧ 0 ≤ r.Confidence ∧ r.Confidence ≤ 1 := by
  refine ⟨hs.1, hs.2, ?_, ?_⟩
  · rw [hc]; exact le_min hs.1 (by norm_num)
  · rw [hc]; exact min_le_right _ _

/-- C6: for every window and each of the five score functions the confidence
of the result equals `min(strength, 1.0)`; and for every config whose five
weights are non-negative and sum to 1.0 the strength and the confidence of each
result lie in [0, 1]. -/
theorem score_confidence_is_min_and_bounded (ps : PatternScorer)
    (cs : List CandlestickWrapper) :
    (∀ r ∈ [ScoreHammer ps cs, ScoreDoji ps cs, ScoreMarubozu ps cs,
          ScoreBullishEngulfing ps cs, ScoreMorningStar ps cs],
        r.Confidence = min r.Strength 1.0) ∧
    ((0 ≤ ps.config.ShapeWeight ∧ 0 ≤ ps.config.SizeWeight ∧
        0 ≤ ps.config.VolumeWeight ∧ 0 ≤ ps.config.TrendWeight ∧
        0 ≤ ps.config.ContextWeight ∧
        ps.config.ShapeWeight + ps.config.SizeWeight + ps.config.VolumeWeight
          + ps.config.TrendWeight + ps.config.ContextWeight = 1.0) →
      ∀ r ∈ [ScoreHammer ps cs, ScoreDoji ps cs, ScoreMarubozu ps cs,
          ScoreBullishEngulfing ps cs, ScoreMorningStar ps cs],
        0 ≤ r.Strength ∧ r.Strength ≤ 1 ∧ 0 ≤ r.Confidence ∧ r.Confidence ≤ 1) := by
  have one : (1.0 : ℚ) = 1 := by norm_num
  rw [one]
  refine ⟨?_, ?_⟩
  · intro r hr
    simp only [List.mem_cons, List.mem_singleton, List.not_mem_nil, or_false] at hr
    rcases hr with rfl | rfl | rfl | rfl | rfl
    · exact scoreHammer_confidence ps cs
    · exact scoreDoji_confidence ps cs
    · exact scoreMarubozu_confidence ps cs
    · exact scoreBullishEngulfing_confidence ps cs
    · exact scoreMorningStar_confidence ps cs
  · rintro ⟨h1, h2, h3, h4, h5, hs⟩ r hr
    simp only [List.mem_cons, List.mem_singleton, List.not_mem_nil, or_false] at hr
    rcases hr with rfl | rfl | rfl | rfl | rfl
    · exact confidence_bounds_of_strength _ (scoreHammer_confidence ps cs)
        (scoreHammer_strength_bounds ps cs h1 h2 h3 h4 h5 hs)
    · exact confidence_bounds_of_strength _ (scoreDoji_confidence ps cs)
        (scoreDoji_strength_bounds ps cs)
    · exact confidence_bounds_of_strength _ (scoreMarubozu_confidence ps cs)
        (scoreMarubozu_strength_bounds ps cs)
    · exact confidence_bounds_of_strength _ (scoreBullishEngulfing_confidence ps cs)
        (scoreBullishEngulfing_strength_bounds ps cs)
    · exact confidence_bounds_of_strength _ (scoreMorningStar_confidence ps cs)
        (scoreMorningStar_strength_bounds ps cs)

/-- Witness for C6: the weights of `DefaultPatternConfig` are non-negative and
sum to 1.0, so the five results for the example Hammer window are bounded. -/
theorem score_confidence_is_min_and_bounded_witness :
    (0 ≤ DefaultPatternConfig.ShapeWeight ∧ 0 ≤ DefaultPatternConfig.SizeWeight ∧
      0 ≤ DefaultPatternConfig.VolumeWeight ∧ 0 ≤ DefaultPatternConfig.TrendWeight ∧
      0 ≤ DefaultPatternConfig.ContextWeight ∧
      DefaultPatternConfig.ShapeWeight + DefaultPatternConfig.SizeWeight
        + DefaultPatternConfig.VolumeWeight + DefaultPatternConfig.TrendWeight
        + DefaultPatternConfig.ContextWeight = 1.0) ∧
    ∀ r ∈ [ScoreHammer (NewPatternScorer DefaultPatternConfig) [mkBar 104 106 92 105 1800],
        ScoreDoji (NewPatternScorer DefaultPatternConfig) [mkBar 104 106 92 105 1800],
        ScoreMarubozu (NewPatternScorer DefaultPatternConfig) [mkBar 104 106 92 105 1800],
        ScoreBullishEngulfing (NewPatternScorer DefaultPatternConfig)
          [mkBar 104 106 92 105 1800],
        ScoreMorningStar (NewPatternScorer DefaultPatternConfig)
          [mkBar 104 106 92 105 1800]],
      0 ≤ r.Strength ∧ r.Strength ≤ 1 ∧ 0 ≤ r.Confidence ∧ r.Confidence ≤ 1 :=
  ⟨by norm_num [DefaultPatternConfig],
   (score_confidence_is_min_and_bounded (NewPatternScorer DefaultPatternConfig)
      [mkBar 104 106 92 105 1800]).2
      (by norm_num [NewPatternScorer, DefaultPatternConfig])⟩

/-! ### Pattern scorer: Morning Star and Bullish Engulfing -/

theorem ltQ_mono (r : F64) {a b : ℚ} (hab : a ≤ b) (h : ltQ r a = true) : ltQ r b = true := by
  cases r with
  | fin q =>
    simp only [ltQ, F64.lt, decide_eq_true_eq] at h ⊢
    exact lt_of_lt_of_le h hab
  | posInf => simp [ltQ, F64.lt] at h
  | negInf => simp [ltQ, F64.lt]
  | nan => simp [ltQ, F64.lt] at h

/-- C7 (counterexample): a bearish bar (112, 113, 105, 107), then a small bar
(107, 108, 106, 107.2) whose high 108 is not below the first close 107, then a
bullish bar (105, 118, 104, 116): no gap down, yet the score is
0.3 + 0.2 + 0.3 = 0.8 > 0.6 and the pattern is detected. -/
theorem scoreMorningStar_detected_without_gap :
    (ScoreMorningStar (NewPatternScorer DefaultPatternConfig)
      [mkBar 105 118 104 116 2400, mkBar 107 108 106 107.2 900,
       mkBar 112 113 105 107 1800]).Detected = true ∧
    ¬ ((mkBar 107 108 106 107.2 900).High < (mkBar 112 113 105 107 1800).Close) := by
  constructor
  · simp only [ScoreMorningStar, mkBar, CandlestickWrapper.IsBearish,
      CandlestickWrapper.IsBullish, CandlestickWrapper.Body]
    norm_num [fdiv, gtQ, ltQ, F64.gt, F64.lt, abs_of_nonneg, abs_of_neg]
  · norm_num [mkBar]

/-- C7 (amended): `ScoreMorningStar` returns detected = true only if the window
has at least three bars and at least three of these four conditions hold:
bar[2] is bearish, bar[1] has a small body (less than half of its range),
bar[0] is bullish, the middle bar gaps down (bar[1].high < bar[2].close). -/
theorem scoreMorningStar_detected_three_of_four (ps : PatternScorer)
    (cs : List CandlestickWrapper)
    (hd : (ScoreMorningStar ps cs).Detected = true) :
    ∃ third second first rest, cs = third :: second :: first :: rest ∧
      ((first.IsBearish = true ∧
          ltQ (fdiv second.Body (second.High - second.Low)) 0.5 = true ∧
          third.IsBullish = true) ∨
       (first.IsBearish = true ∧
          ltQ (fdiv second.Body (second.High - second.Low)) 0.5 = true ∧
          second.High < first.Close) ∨
       (first.IsBearish = true ∧ third.IsBullish = true ∧ second.High < first.Close) ∨
       (ltQ (fdiv second.Body (second.High - second.Low)) 0.5 = true ∧
          third.IsBullish = true ∧ second.High < first.Close)) := by
  match cs, hd with
  | [], hd => simp [ScoreMorningStar, notDetected] at hd
  | [_], hd => simp [ScoreMorningStar, notDetected] at hd
  | [_, _], hd => simp [ScoreMorningStar, notDetected] at hd
  | third :: second :: first :: rest, hd =>
    refine ⟨third, second, first, rest, rfl, ?_⟩
    have hmono : ltQ (fdiv second.Body (second.High - second.Low)) 0.3 = true →
        ltQ (fdiv second.Body (second.High - second.Low)) 0.5 = true :=
      ltQ_mono _ (by norm_num)
    simp only [ScoreMorningStar] at hd
    by_cases hA : first.IsBearish = true <;>
    by_cases hB : ltQ (fdiv second.Body (second.High - second.Low)) 0.5 = true <;>
    by_cases hC : third.IsBullish = true <;>
    by_cases hD : second.High < first.Close <;>
    simp only [hA, hB, hC, hD, true_and, and_true, and_self, or_true, true_or,
      false_and, and_false, or_false, false_or] <;>
    (exfalso
     split_ifs at hd <;> first | (norm_num at hd; done) | (exact hB (hmono ‹_›)) | tauto)

/-- Witness for the amended C7: the Morning Star of the example data, bars
(112, 113, 105, 107), (104, 105, 102, 103), (105, 118, 104, 116) in time order,
is detected. -/
theorem scoreMorningStar_detected_three_of_four_witness :
    (ScoreMorningStar (NewPatternScorer DefaultPatternConfig)
      [mkBar 105 118 104 116 2400, mkBar 104 105 102 103 900,
       mkBar 112 113 105 107 1800]).Detected = true ∧
    ∃ third second first rest,
      [mkBar 105 118 104 116 2400, mkBar 104 105 102 103 900,
       mkBar 112 113 105 107 1800] = third :: second :: first :: rest ∧
      ((first.IsBearish = true ∧
          ltQ (fdiv second.Body (second.High - second.Low)) 0.5 = true ∧
          third.IsBullish = true) ∨
       (first.IsBearish = true ∧
          ltQ (fdiv second.Body (second.High - second.Low)) 0.5 = true ∧
          second.High < first.Close) ∨
       (first.IsBearish = true ∧ third.IsBullish = true ∧ second.High < first.Close) ∨
       (ltQ (fdiv second.Body (second.High - second.Low)) 0.5 = true ∧
          third.IsBullish = true ∧ second.High < first.Close)) := by
  have hd : (ScoreMorningStar (NewPatternScorer DefaultPatternConfig)
      [mkBar 105 118 104 116 2400, mkBar 104 105 102 103 900,
       mkBar 112 113 105 107 1800]).Detected = true := by
    simp only [ScoreMorningStar, mkBar, CandlestickWrapper.IsBearish,
      CandlestickWrapper.IsBullish, CandlestickWrapper.Body]
    norm_num [fdiv, gtQ, ltQ, F64.gt, F64.lt, abs_of_nonneg, abs_of_neg]
  exact ⟨hd, scoreMorningStar_detected_three_of_four _ _ hd⟩

theorem scoreBullishEngulfing_guard (ps : PatternScorer)
    (second first : CandlestickWrapper) (rest : List CandlestickWrapper)
    (h : first.IsBearish = false ∨ second.IsBullish = false) :
    ScoreBullishEngulfing ps (second :: first :: rest) = notDetected "BullishEngulfing" := by
  have hg : (!first.IsBearish || !second.IsBullish) = true := by
    rcases h with h | h <;> simp [h]
  simp only [ScoreBullishEngulfing, if_pos hg]

theorem scoreBullishEngulfing_not_contained (ps : PatternScorer)
    (second first : CandlestickWrapper) (rest : List CandlestickWrapper)
    (h : ¬ (second.Open ≤ first.Close ∧ second.Close ≥ first.Open)) :
    (ScoreBullishEngulfing ps (second :: first :: rest)).Detected = false := by
  simp only [ScoreBullishEngulfing]
  split_ifs <;> simp [notDetected] <;> norm_num

/-- C8: `ScoreBullishEngulfing` returns detected = true only if the window has
at least two bars, bar[1] is bearish, bar[0] is bullish and the body of bar[0]
contains the body of bar[1]; whenever bar[1] is not bearish or bar[0] is not
bullish it returns detected = false with strength 0, as for the bars
(128, 132, 127, 131) followed in time by (133, 134, 120, 122). -/
theorem scoreBullishEngulfing_detected_only_if (ps : PatternScorer)
    (cs : List CandlestickWrapper) :
    ((ScoreBullishEngulfing ps cs).Detected = true →
      ∃ second first rest, cs = second :: first :: rest ∧
        first.IsBearish = true ∧ second.IsBullish = true ∧
        second.Open ≤ first.Close ∧ second.Close ≥ first.Open) ∧
    (∀ second first rest, cs = second :: first :: rest →
      (first.IsBearish = false ∨ second.IsBullish = false) →
      (ScoreBullishEngulfing ps cs).Detected = false ∧
      (ScoreBullishEngulfing ps cs).Strength = 0) ∧
    (ScoreBullishEngulfing ps
        [mkBar 133 134 120 122 2800, mkBar 128 132 127 131 1400]).Detected = false ∧
    (ScoreBullishEngulfing ps
        [mkBar 133 134 120 122 2800, mkBar 128 132 127 131 1400]).Strength = 0 := by
  have hex : ScoreBullishEngulfing ps
      [mkBar 133 134 120 122 2800, mkBar 128 132 127 131 1400]
        = notDetected "BullishEngulfing" := by
    apply scoreBullishEngulfing_guard
    left
    simp [CandlestickWrapper.IsBearish, mkBar]
    norm_num
  refine ⟨?_, ?_, ?_, ?_⟩
  · intro hd
    match cs, hd with
    | [], hd => simp [ScoreBullishEngulfing, notDetected] at hd
    | [_], hd => simp [ScoreBullishEngulfing, notDetected] at hd
    | second :: first :: rest, hd =>
      refine ⟨second, first, rest, rfl, ?_⟩
      by_cases hb : first.IsBearish = false ∨ second.IsBullish = false
      · rw [scoreBullishEngulfing_guard ps second first rest hb] at hd
        simp [notDetected] at hd
      · by_cases hc : second.Open ≤ first.Close ∧ second.Close ≥ first.Open
        · refine ⟨?_, ?_, hc.1, hc.2⟩
          · cases h1 : first.IsBearish
            · exact absurd (Or.inl h1) hb
            · rfl
          · cases h2 : second.IsBullish
            · exact absurd (Or.inr h2) hb
            · rfl
        · rw [scoreBullishEngulfing_not_contained ps second first rest hc] at hd
          exact absurd hd (by simp)
  · intro second first rest hcs hb
    subst hcs
    rw [scoreBullishEngulfing_guard ps second first rest hb]
    exact ⟨rfl, rfl⟩
  · rw [hex]; rfl
  · rw [hex]; rfl

/-- Witness for C8: a bearish bar (110, 111, 99, 100) followed in time by the
bullish bar (99, 116, 98, 115) is detected, and the three conditions hold. -/
theorem scoreBullishEngulfing_detected_only_if_witness :
    (ScoreBullishEngulfing (NewPatternScorer DefaultPatternConfig)
        [mkBar 99 116 98 115 2000, mkBar 110 111 99 100 1000]).Detected = true ∧
    ∃ second first rest,
      [mkBar 99 116 98 115 2000, mkBar 110 111 99 100 1000] = second :: first :: rest ∧
      first.IsBearish = true ∧ second.IsBullish = true ∧
      second.Open ≤ first.Close ∧ second.Close ≥ first.Open := by
  have hd : (ScoreBullishEngulfing (NewPatternScorer DefaultPatternConfig)
        [mkBar 99 116 98 115 2000, mkBar 110 111 99 100 1000]).Detected = true := by
    simp only [ScoreBullishEngulfing, mkBar, CandlestickWrapper.IsBearish,
      CandlestickWrapper.IsBullish, CandlestickWrapper.Body]
    norm_num [fdiv, gtQ, F64.gt, F64.lt]
  exact ⟨hd, (scoreBullishEngulfing_detected_only_if _ _).1 hd⟩

/-! ### Pattern scorer: Hammer and its trend context -/

theorem uptrend_ne_downtrend : ¬ ("uptrend" = "downtrend") := by decide

theorem analyzeTrendContext_of_falling_over_time (b1 b2 b3 b4 b5 : CandlestickWrapper)
    (h54 : b5.Close > b4.Close) (h43 : b4.Close > b3.Close)
    (h32 : b3.Close > b2.Close) (h21 : b2.Close > b1.Close) :
    analyzeTrendContext [b1, b2, b3, b4, b5] = "uptrend" := by
  simp [analyzeTrendContext, trendCounts, h54, h43, h32, h21]

/-- C9 (evaluation at the failing input): the window, most recent first, is the
hammer bar followed by five bars whose closes fall strictly over time
(120, 115, 110, 105, 100 from oldest to newest).  `analyzeTrendContext` on
`window[1:6]` walks the slice from newest to oldest, counts four rising closes
and answers "uptrend", so the Hammer trend sub-score is 0: the strength is
0.82 = 0.8*0.4 + 1*0.3 + 1*0.1 + 0*0.1 + 1*0.1 instead of 0.92. -/
theorem analyzeTrendContext_inverts_at_example :
    analyzeTrendContext
        (slice [mkBar 104 106 92 105 1800, mkBar 101 102 99 100 1,
                mkBar 106 107 104 105 1, mkBar 111 112 109 110 1,
                mkBar 116 117 114 115 1, mkBar 121 122 119 120 1] 1 6) = "uptrend" ∧
    (ScoreHammer (NewPatternScorer DefaultPatternConfig)
        [mkBar 104 106 92 105 1800, mkBar 101 102 99 100 1,
         mkBar 106 107 104 105 1, mkBar 111 112 109 110 1,
         mkBar 116 117 114 115 1, mkBar 121 122 119 120 1]).Strength = 0.82 := by
  have ht : analyzeTrendContext
        (slice [mkBar 104 106 92 105 1800, mkBar 101 102 99 100 1,
                mkBar 106 107 104 105 1, mkBar 111 112 109 110 1,
                mkBar 116 117 114 115 1, mkBar 121 122 119 120 1] 1 6) = "uptrend" := by
    have : slice [mkBar 104 106 92 105 1800, mkBar 101 102 99 100 1,
                mkBar 106 107 104 105 1, mkBar 111 112 109 110 1,
                mkBar 116 117 114 115 1, mkBar 121 122 119 120 1] 1 6
        = [mkBar 101 102 99 100 1,
                mkBar 106 107 104 105 1, mkBar 111 112 109 110 1,
                mkBar 116 117 114 115 1, mkBar 121 122 119 120 1] := rfl
    rw [this]
    apply analyzeTrendContext_of_falling_over_time <;> norm_num [mkBar]
  refine ⟨ht, ?_⟩
  simp only [ScoreHammer, ht]
  norm_num [mkBar, NewPatternScorer, uptrend_ne_downtrend,
      DefaultPatternConfig, calculateAverageVolume, fdiv, ltQ, gtQ, F64.lt, F64.gt, slice,
      CandlestickWrapper.Body, CandlestickWrapper.LowerShadow, CandlestickWrapper.UpperShadow]

/-- C10: under `DefaultPatternConfig`, for every window whose most recent bar is
open 104, high 106, low 92, close 105 (any timestamp and volume), whatever the
older bars are, `ScoreHammer` returns detected = true and direction "bullish";
in particular for every window of at least 6 bars whose 5 preceding bars form
a downtrend. -/
theorem scoreHammer_detects_example_bar (ts : ℤ) (vol : ℚ)
    (rest : List CandlestickWrapper) :
    (ScoreHammer (NewPatternScorer DefaultPatternConfig)
      ({ Timestamp := ts, Open := 104, High := 106, Low := 92, Close := 105,
         Volume := vol } :: rest)).Detected = true ∧
    (ScoreHammer (NewPatternScorer DefaultPatternConfig)
      ({ Timestamp := ts, Open := 104, High := 106, Low := 92, Close := 105,
         Volume := vol } :: rest)).Direction = "bullish" := by
  have hb : |(105 : ℚ) - 104| = 1 := by norm_num
  constructor
  · simp only [ScoreHammer, NewPatternScorer, DefaultPatternConfig,
      CandlestickWrapper.Body, CandlestickWrapper.LowerShadow,
      CandlestickWrapper.UpperShadow, hb]
    norm_num [fdiv, ltQ, gtQ, F64.lt, F64.gt]
    split_ifs <;> norm_num
  · simp only [ScoreHammer, NewPatternScorer, DefaultPatternConfig,
      CandlestickWrapper.Body, CandlestickWrapper.LowerShadow,
      CandlestickWrapper.UpperShadow, hb]
    norm_num

/-! ### Pattern scorer: zero range, short windows, direction -/

/-- C12: for every config and every window whose most recent bar has
high == low, `ScoreHammer`, `ScoreDoji` and `ScoreMarubozu` return
detected = false. -/
theorem single_bar_scores_zero_range (ps : PatternScorer) (c : CandlestickWrapper)
    (rest : List CandlestickWrapper) (h : c.High = c.Low) :
    (ScoreHammer ps (c :: rest)).Detected = false ∧
    (ScoreDoji ps (c :: rest)).Detected = false ∧
    (ScoreMarubozu ps (c :: rest)).Detected = false := by
  have h0 : c.High - c.Low = 0 := by rw [h]; exact sub_self _
  refine ⟨?_, ?_, ?_⟩
  · simp only [ScoreHammer, if_pos (Or.inr h0 : c.Body = 0 ∨ c.High - c.Low = 0)]
    rfl
  · simp only [ScoreDoji, if_pos h0]
    rfl
  · simp only [ScoreMarubozu, if_pos h0]
    rfl

/-- Witness for C12 at the flat bar 100, 100, 100, 100. -/
theorem single_bar_scores_zero_range_witness :
    (mkBar 100 100 100 100 500).High = (mkBar 100 100 100 100 500).Low ∧
    (ScoreHammer (NewPatternScorer DefaultPatternConfig)
      [mkBar 100 100 100 100 500]).Detected = false ∧
    (ScoreDoji (NewPatternScorer DefaultPatternConfig)
      [mkBar 100 100 100 100 500]).Detected = false ∧
    (ScoreMarubozu (NewPatternScorer DefaultPatternConfig)
      [mkBar 100 100 100 100 500]).Detected = false :=
  ⟨rfl, single_bar_scores_zero_range _ (mkBar 100 100 100 100 500) [] rfl⟩

/-- C13 (evaluation at the failing input): the window, most recent first, is
the bullish bar (105, 118, 104, 116), the flat bar (103, 103, 103, 103) with
high == low, and the bearish bar (112, 113, 105, 107).  `ScoreMorningStar` has
no zero-range guard: it divides 0 by 0 for the middle bar, the NaN ratio fails
both comparisons so the second sub-score is 0, and the result is detected with
strength 0.3 + 0.3 + 0.2 = 0.8. -/
theorem scoreMorningStar_zero_range_detected :
    (mkBar 103 103 103 103 900).High = (mkBar 103 103 103 103 900).Low ∧
    fdiv (mkBar 103 103 103 103 900).Body
      ((mkBar 103 103 103 103 900).High - (mkBar 103 103 103 103 900).Low) = F64.nan ∧
    (ScoreMorningStar (NewPatternScorer DefaultPatternConfig)
      [mkBar 105 118 104 116 2400, mkBar 103 103 103 103 900,
       mkBar 112 113 105 107 1800]).Detected = true ∧
    (ScoreMorningStar (NewPatternScorer DefaultPatternConfig)
      [mkBar 105 118 104 116 2400, mkBar 103 103 103 103 900,
       mkBar 112 113 105 107 1800]).Strength = 0.8 := by
  refine ⟨rfl, ?_, ?_, ?_⟩
  · norm_num [fdiv, mkBar, CandlestickWrapper.Body]
  · simp only [ScoreMorningStar, mkBar, CandlestickWrapper.IsBearish,
      CandlestickWrapper.IsBullish, CandlestickWrapper.Body]
    norm_num [fdiv, gtQ, ltQ, F64.gt, F64.lt, abs_of_nonneg, abs_of_neg]
  · simp only [ScoreMorningStar, mkBar, CandlestickWrapper.IsBearish,
      CandlestickWrapper.IsBullish, CandlestickWrapper.Body]
    norm_num [fdiv, gtQ, ltQ, F64.gt, F64.lt, abs_of_nonneg, abs_of_neg]

/-- C14: for a window shorter than the pattern needs (empty for `ScoreHammer`,
`ScoreDoji`, `ScoreMarubozu`; fewer than 2 bars for `ScoreBullishEngulfing`;
fewer than 3 bars for `ScoreMorningStar`) the score function returns
detected = false with strength 0 and confidence 0. -/
theorem short_window_not_detected (ps : PatternScorer) (cs : List CandlestickWrapper) :
    (cs.length < 1 →
      ((ScoreHammer ps cs).Detected = false ∧ (ScoreHammer ps cs).Strength = 0 ∧
        (ScoreHammer ps cs).Confidence = 0) ∧
      ((ScoreDoji ps cs).Detected = false ∧ (ScoreDoji ps cs).Strength = 0 ∧
        (ScoreDoji ps cs).Confidence = 0) ∧
      ((ScoreMarubozu ps cs).Detected = false ∧ (ScoreMarubozu ps cs).Strength = 0 ∧
        (ScoreMarubozu ps cs).Confidence = 0)) ∧
    (cs.length < 2 →
      (ScoreBullishEngulfing ps cs).Detected = false ∧
      (ScoreBullishEngulfing ps cs).Strength = 0 ∧
      (ScoreBullishEngulfing ps cs).Confidence = 0) ∧
    (cs.length < 3 →
      (ScoreMorningStar ps cs).Detected = false ∧
      (ScoreMorningStar ps cs).Strength = 0 ∧
      (ScoreMorningStar ps cs).Confidence = 0) := by
  refine ⟨?_, ?_, ?_⟩
  · intro h
    match cs, h with
    | [], _ => exact ⟨⟨rfl, rfl, rfl⟩, ⟨rfl, rfl, rfl⟩, ⟨rfl, rfl, rfl⟩⟩
  · intro h
    match cs, h with
    | [], _ => exact ⟨rfl, rfl, rfl⟩
    | [_], _ => exact ⟨rfl, rfl, rfl⟩
    | _ :: _ :: _, h => simp only [List.length_cons] at h; omega
  · intro h
    match cs, h with
    | [], _ => exact ⟨rfl, rfl, rfl⟩
    | [_], _ => exact ⟨rfl, rfl, rfl⟩
    | [_, _], _ => exact ⟨rfl, rfl, rfl⟩
    | _ :: _ :: _ :: _, h => simp only [List.length_cons] at h; omega

/-- Witness for C14: a one-bar window is too short for the two-bar and the
three-bar pattern. -/
theorem short_window_not_detected_witness :
    [mkBar 104 106 92 105 1800].length < 2 ∧
    ((ScoreBullishEngulfing (NewPatternScorer DefaultPatternConfig)
        [mkBar 104 106 92 105 1800]).Detected = false ∧
      (ScoreBullishEngulfing (NewPatternScorer DefaultPatternConfig)
        [mkBar 104 106 92 105 1800]).Strength = 0 ∧
      (ScoreBullishEngulfing (NewPatternScorer DefaultPatternConfig)
        [mkBar 104 106 92 105 1800]).Confidence = 0) ∧
    ((ScoreMorningStar (NewPatternScorer DefaultPatternConfig)
        [mkBar 104 106 92 105 1800]).Detected = false ∧
      (ScoreMorningStar (NewPatternScorer DefaultPatternConfig)
        [mkBar 104 106 92 105 1800]).Strength = 0 ∧
      (ScoreMorningStar (NewPatternScorer DefaultPatternConfig)
        [mkBar 104 106 92 105 1800]).Confidence = 0) :=
  ⟨by decide,
   (short_window_not_detected _ [mkBar 104 106 92 105 1800]).2.1 (by decide),
   (short_window_not_detected _ [mkBar 104 106 92 105 1800]).2.2 (by decide)⟩

/-- C15 (counterexample): on the empty window `ScoreHammer` returns the
zero-valued result, whose direction is the empty string, none of "bullish",
"bearish", "neutral". -/
theorem scoreHammer_empty_window_direction :
    (ScoreHammer (NewPatternScorer DefaultPatternConfig) []).Direction = "" ∧
    ¬ ((ScoreHammer (NewPatternScorer DefaultPatternConfig) []).Direction = "bullish" ∨
       (ScoreHammer (NewPatternScorer DefaultPatternConfig) []).Direction = "bearish" ∨
       (ScoreHammer (NewPatternScorer DefaultPatternConfig) []).Direction = "neutral") := by
  refine ⟨rfl, ?_⟩
  simp [ScoreHammer, notDetected]

theorem notDetected_direction (name : String) :
    (notDetected name).Direction = "" ∧ (notDetected name).Detected = false ∧
    (notDetected name).Strength = 0 := ⟨rfl, rfl, rfl⟩

/-- C15 (amended): every result of the five score functions either has
direction "bullish", "bearish" or "neutral", or is the zero-valued result of an
early return, with the empty direction, detected = false and strength 0; so
every detected result has one of the three directions. -/
theorem score_direction_or_zero_value (ps : PatternScorer)
    (cs : List CandlestickWrapper) :
    ∀ r ∈ [ScoreHammer ps cs, ScoreDoji ps cs, ScoreMarubozu ps cs,
        ScoreBullishEngulfing ps cs, ScoreMorningStar ps cs],
      ((r.Direction = "bullish" ∨ r.Direction = "bearish" ∨ r.Direction = "neutral") ∨
        (r.Direction = "" ∧ r.Detected = false ∧ r.Strength = 0)) ∧
      (r.Detected = true →
        r.Direction = "bullish" ∨ r.Direction = "bearish" ∨ r.Direction = "neutral") := by
  have main : ∀ r ∈ [ScoreHammer ps cs, ScoreDoji ps cs, ScoreMarubozu ps cs,
        ScoreBullishEngulfing ps cs, ScoreMorningStar ps cs],
      (r.Direction = "bullish" ∨ r.Direction = "bearish" ∨ r.Direction = "neutral") ∨
        (r.Direction = "" ∧ r.Detected = false ∧ r.Strength = 0) := by
    intro r hr
    simp only [List.mem_cons, List.mem_singleton, List.not_mem_nil, or_false] at hr
    rcases hr with rfl | rfl | rfl | rfl | rfl
    · cases cs with
      | nil => exact Or.inr (notDetected_direction _)
      | cons c rest =>
        by_cases hg : c.Body = 0 ∨ c.High - c.Low = 0
        · simp only [ScoreHammer, if_pos hg]
          exact Or.inr (notDetected_direction _)
        · simp [ScoreHammer, if_neg hg]
    · cases cs with
      | nil => exact Or.inr (notDetected_direction _)
      | cons c rest =>
        by_cases hg : c.High - c.Low = 0
        · simp only [ScoreDoji, if_pos hg]
          exact Or.inr (notDetected_direction _)
        · simp [ScoreDoji, if_neg hg]
    · cases cs with
      | nil => exact Or.inr (notDetected_direction _)
      | cons c rest =>
        by_cases hg : c.High - c.Low = 0
        · simp only [ScoreMarubozu, if_pos hg]
          exact Or.inr (notDetected_direction _)
        · simp only [ScoreMarubozu, if_neg hg]
          left
          split_ifs <;> simp
    · match cs with
      | [] => exact Or.inr (notDetected_direction _)
      | [_] => exact Or.inr (notDetected_direction _)
      | second :: first :: rest =>
        by_cases hg : (!first.IsBearish || !second.IsBullish) = true
        · simp only [ScoreBullishEngulfing, if_pos hg]
          exact Or.inr (notDetected_direction _)
        · simp only [ScoreBullishEngulfing, if_neg hg]
          simp
    · match cs with
      | [] => exact Or.inr (notDetected_direction _)
      | [_] => exact Or.inr (notDetected_direction _)
      | [_, _] => exact Or.inr (notDetected_direction _)
      | third :: second :: first :: rest =>
        simp [ScoreMorningStar]
  intro r hr
  refine ⟨main r hr, ?_⟩
  intro hd
  rcases main r hr with h | ⟨-, hf, -⟩
  · exact h
  · rw [hf] at hd
    exact absurd hd (by simp)

/-- Witness for the amended C15: the Hammer result for the example bar
(104, 106, 92, 105) is one of the five results. -/
theorem score_direction_or_zero_value_witness :
    (((ScoreHammer (NewPatternScorer DefaultPatternConfig)
          [mkBar 104 106 92 105 1800]).Direction = "bullish" ∨
        (ScoreHammer (NewPatternScorer DefaultPatternConfig)
          [mkBar 104 106 92 105 1800]).Direction = "bearish" ∨
        (ScoreHammer (NewPatternScorer DefaultPatternConfig)
          [mkBar 104 106 92 105 1800]).Direction = "neutral") ∨
      ((ScoreHammer (NewPatternScorer DefaultPatternConfig)
          [mkBar 104 106 92 105 1800]).Direction = "" ∧
        (ScoreHammer (NewPatternScorer DefaultPatternConfig)
          [mkBar 104 106 92 105 1800]).Detected = false ∧
        (ScoreHammer (NewPatternScorer DefaultPatternConfig)
          [mkBar 104 106 92 105 1800]).Strength = 0)) ∧
    ((ScoreHammer (NewPatternScorer DefaultPatternConfig)
        [mkBar 104 106 92 105 1800]).Detected = true →
      (ScoreHammer (NewPatternScorer DefaultPatternConfig)
          [mkBar 104 106 92 105 1800]).Direction = "bullish" ∨
        (ScoreHammer (NewPatternScorer DefaultPatternConfig)
          [mkBar 104 106 92 105 1800]).Direction = "bearish" ∨
        (ScoreHammer (NewPatternScorer DefaultPatternConfig)
          [mkBar 104 106 92 105 1800]).Direction = "neutral") :=
  score_direction_or_zero_value (NewPatternScorer DefaultPatternConfig)
    [mkBar 104 106 92 105 1800]
    (ScoreHammer (NewPatternScorer DefaultPatternConfig) [mkBar 104 106 92 105 1800])
    (List.mem_cons_self _ _)

/-! ### Stop-loss policies -/

/-- C16 (counterexample): with ratio 0.03, entry price 100, current price 120
and the parameter "highest" = 110, `TrailingStopLoss.CalculateStopLoss` returns
120 * 0.97 = 116.4, because the current price replaces a lower highest price;
`max(100 * 0.97, 110 * 0.97)` is 106.7. -/
theorem trailingStopLoss_uses_current_price :
    TrailingStopLoss.CalculateStopLoss (NewTrailingStopLoss 0.03) 100 120
      [("highest", 110)] = 116.4 ∧
    TrailingStopLoss.CalculateStopLoss (NewTrailingStopLoss 0.03) 100 120
      [("highest", 110)] ≠ max (100 * (1 - 0.03)) (110 * (1 - 0.03)) := by
  have h : TrailingStopLoss.CalculateStopLoss (NewTrailingStopLoss 0.03) 100 120
      [("highest", 110)] = 116.4 := by
    simp [TrailingStopLoss.CalculateStopLoss, NewTrailingStopLoss, paramGet, List.lookup]
    norm_num
  refine ⟨h, ?_⟩
  rw [h]
  norm_num

/-- C16 (amended): `TrailingStopLoss.CalculateStopLoss` returns
`max(entryPrice*(1-ratio), h*(1-ratio))` where `h` is the larger of the current
price and the highest price, the latter being the "highest" parameter, or the
entry price when that parameter is absent or zero. -/
theorem trailingStopLoss_formula (t : TrailingStopLoss) (entryPrice currentPrice : ℚ)
    (params : List (String × ℚ)) :
    TrailingStopLoss.CalculateStopLoss t entryPrice currentPrice params
      = max (entryPrice * (1 - t.ratio))
          (max (match params.lookup "highest" with
                | none => entryPrice
                | some v => if v = 0 then entryPrice else v) currentPrice
            * (1 - t.ratio)) := by
  have hmax : ∀ a b : ℚ, (if b > a then b else a) = max a b := by
    intro a b
    rcases lt_or_le a b with h | h
    · simp [h, max_eq_right h.le]
    · simp [not_lt.mpr h, max_eq_left h]
  simp only [TrailingStopLoss.CalculateStopLoss, paramGet, hmax]
  cases params.lookup "highest" with
  | none => simp
  | some v => simp

/-- C17: for every ratio, entry price, current price and parameter bundle the
price returned by `TrailingStopLoss.CalculateStopLoss` is at least the fixed
floor `entryPrice*(1-ratio)`, which is what `FixedStopLoss` with the same ratio
returns. -/
theorem trailingStopLoss_ge_fixed (ratio entryPrice currentPrice : ℚ)
    (params : List (String × ℚ)) :
    FixedStopLoss.CalculateStopLoss (NewFixedStopLoss ratio) entryPrice currentPrice params
      = entryPrice * (1 - ratio) ∧
    entryPrice * (1 - ratio)
      ≤ TrailingStopLoss.CalculateStopLoss (NewTrailingStopLoss ratio) entryPrice
          currentPrice params ∧
    FixedStopLoss.CalculateStopLoss (NewFixedStopLoss ratio) entryPrice currentPrice params
      ≤ TrailingStopLoss.CalculateStopLoss (NewTrailingStopLoss ratio) entryPrice
          currentPrice params := by
  have h1 : FixedStopLoss.CalculateStopLoss (NewFixedStopLoss ratio) entryPrice
      currentPrice params = entryPrice * (1 - ratio) := rfl
  have h2 : entryPrice * (1 - ratio)
      ≤ TrailingStopLoss.CalculateStopLoss (NewTrailingStopLoss ratio) entryPrice
          currentPrice params := by
    simp only [TrailingStopLoss.CalculateStopLoss, NewTrailingStopLoss]
    exact le_max_left _ _
  exact ⟨h1, h2, h1 ▸ h2⟩

theorem atr_ne_fixed : ¬ ("atr" = "fixed") := by decide

/-- For a non-zero "atr" parameter the "atr" branch of
`RiskManager.CalculateStopLoss` and `ATRStopLoss` agree. -/
theorem calculateStopLoss_atr_agree (rm : RiskManager) (entryPrice currentPrice : ℚ)
    (params : List (String × ℚ)) (h : paramGet params "atr" ≠ 0) :
    RiskManager.CalculateStopLoss rm entryPrice "atr" params
      = ATRStopLoss.CalculateStopLoss (NewATRStopLoss (paramGet params "multiplier"))
          entryPrice currentPrice params := by
  simp only [RiskManager.CalculateStopLoss, ATRStopLoss.CalculateStopLoss, NewATRStopLoss,
    if_neg atr_ne_fixed, if_neg h, if_true]

/-- C18 (evaluation at the failing input): entry price 100, kind "atr" and the
parameters multiplier = 2 with no "atr" entry.  `RiskManager.CalculateStopLoss`
reads the missing ATR as 0 and returns 100 - 0 * 2 = 100, while `ATRStopLoss`
built with multiplier 2 falls back to 100 * 0.98 = 98. -/
theorem calculateStopLoss_atr_no_fallback :
    RiskManager.CalculateStopLoss (NewRiskManager 1000 DefaultRiskConfig) 100 "atr"
      [("multiplier", 2)] = 100 ∧
    ATRStopLoss.CalculateStopLoss (NewATRStopLoss 2) 100 100 [("multiplier", 2)] = 98 := by
  constructor
  · simp [RiskManager.CalculateStopLoss, paramGet, List.lookup, atr_ne_fixed]
  · simp [ATRStopLoss.CalculateStopLoss, NewATRStopLoss, paramGet, List.lookup]
    norm_num

/-! ### Portfolio updates -/

theorem foldl_add_map_sum {α : Type} (xs : List α) (f : α → ℚ) (init : ℚ) :
    xs.foldl (fun acc x => acc + f x) init = init + (xs.map f).sum := by
  induction xs generalizing init with
  | nil => simp
  | cons x t ih => simp [ih, add_assoc]

theorem lookup_cons_eq {β : Type} (k : String) (b : β) (es : List (String × β)) :
    List.lookup k ((k, b) :: es) = some b := by
  simp [List.lookup]

theorem lookup_cons_ne {β : Type} (a k : String) (b : β) (es : List (String × β))
    (h : a ≠ k) : List.lookup a ((k, b) :: es) = List.lookup a es := by
  have hb : (a == k) = false := by simpa using h
  simp [List.lookup, hb]

theorem setCurrentPrice_cons (k : String) (pos : Position) (t : List (String × Position))
    (s : String) (p : ℚ) :
    setCurrentPrice ((k, pos) :: t) s p
      = (if k = s then (k, { pos with CurrentPrice := p }) else (k, pos))
          :: setCurrentPrice t s p := rfl

theorem lookup_setCurrentPrice_self (l : List (String × Position)) (s : String) (p : ℚ) :
    (setCurrentPrice l s p).lookup s
      = (l.lookup s).map (fun pos => { pos with CurrentPrice := p }) := by
  induction l with
  | nil => rfl
  | cons kv t ih =>
    obtain ⟨k, pos⟩ := kv
    rw [setCurrentPrice_cons]
    by_cases hk : k = s
    · subst hk
      rw [if_pos rfl, lookup_cons_eq, lookup_cons_eq]
      rfl
    · rw [if_neg hk, lookup_cons_ne _ _ _ _ (Ne.symm hk), lookup_cons_ne _ _ _ _ (Ne.symm hk), ih]

theorem lookup_setCurrentPrice_ne (l : List (String × Position)) (s k : String) (p : ℚ)
    (hk : k ≠ s) : (setCurrentPrice l s p).lookup k = l.lookup k := by
  induction l with
  | nil => rfl
  | cons kv t ih =>
    obtain ⟨k', pos⟩ := kv
    rw [setCurrentPrice_cons]
    by_cases hk' : k' = s
    · subst hk'
      rw [if_pos rfl, lookup_cons_ne _ _ _ _ hk, lookup_cons_ne _ _ _ _ hk, ih]
    · rw [if_neg hk']
      by_cases hkk : k = k'
      · subst hkk
        rw [lookup_cons_eq, lookup_cons_eq]
      · rw [lookup_cons_ne _ _ _ _ hkk, lookup_cons_ne _ _ _ _ hkk, ih]

theorem setCurrentPrice_keys (l : List (String × Position)) (s : String) (p : ℚ) :
    (setCurrentPrice l s p).map Prod.fst = l.map Prod.fst := by
  induction l with
  | nil => rfl
  | cons kv t ih =>
    obtain ⟨k, pos⟩ := kv
    rw [setCurrentPrice_cons, List.map_cons, List.map_cons, ih]
    by_cases hk : k = s
    · rw [if_pos hk]
    · rw [if_neg hk]

theorem checkStopLossTakeProfit_portfolio (rm : RiskManager) (symbol : String) :
    (checkStopLossTakeProfit rm symbol).portfolio = rm.portfolio ∧
    (checkStopLossTakeProfit rm symbol).config = rm.config := by
  unfold checkStopLossTakeProfit
  cases rm.portfolio.Positions.lookup symbol with
  | none => exact ⟨rfl, rfl⟩
  | some position =>
    simp only []
    split_ifs <;> exact ⟨rfl, rfl⟩

theorem updatePortfolio_of_position (rm : RiskManager) (symbol : String) (p : ℚ)
    (pos : Position) (h : rm.portfolio.Positions.lookup symbol = some pos) :
    (UpdatePortfolio rm symbol p).portfolio
      = (updateTotalValue
          { rm with
            portfolio :=
              { rm.portfolio with
                Positions := setCurrentPrice rm.portfolio.Positions symbol p } }).portfolio ∧
    (UpdatePortfolio rm symbol p).config = rm.config := by
  simp only [UpdatePortfolio, h]
  exact ⟨(checkStopLossTakeProfit_portfolio _ _).1, (checkStopLossTakeProfit_portfolio _ _).2⟩

theorem updatePortfolio_of_no_position (rm : RiskManager) (symbol : String) (p : ℚ)
    (h : rm.portfolio.Positions.lookup symbol = none) :
    UpdatePortfolio rm symbol p = rm := by
  simp only [UpdatePortfolio, h]

theorem ite_gt_eq_max (a b : ℚ) : (if b > a then b else a) = max a b := by
  rcases lt_or_le a b with h | h
  · simp [h, max_eq_right h.le]
  · simp [not_lt.mpr h, max_eq_left h]

/-- C19: for a symbol with an open position `pos`, `UpdatePortfolio symbol p`
sets that position's current price to `p` and leaves its other fields, every
other position, the keys, cash, risk budget and the config unchanged; then
totalValue = cash + sum of quantity * currentPrice over the positions,
peakValue = max(previous peakValue, totalValue), currentDrawdown is the float
quotient (peakValue - totalValue) / peakValue, and the maximum drawdown is
raised to currentDrawdown when that is larger, which for a finite previous
maximum and a non-zero peak is max(previous maximum, currentDrawdown). -/
theorem updatePortfolio_effect (rm : RiskManager) (symbol : String) (p : ℚ)
    (pos : Position) (h : rm.portfolio.Positions.lookup symbol = some pos) :
    (UpdatePortfolio rm symbol p).portfolio.Positions.lookup symbol
      = some { pos with CurrentPrice := p } ∧
    (∀ k, k ≠ symbol →
      (UpdatePortfolio rm symbol p).portfolio.Positions.lookup k
        = rm.portfolio.Positions.lookup k) ∧
    (UpdatePortfolio rm symbol p).portfolio.Positions.map Prod.fst
      = rm.portfolio.Positions.map Prod.fst ∧
    (UpdatePortfolio rm symbol p).portfolio.TotalValue
      = rm.portfolio.Cash +
        ((UpdatePortfolio rm symbol p).portfolio.Positions.map
          (fun kv => (kv.2.Quantity : ℚ) * kv.2.CurrentPrice)).sum ∧
    (UpdatePortfolio rm symbol p).portfolio.PeakValue
      = max rm.portfolio.PeakValue (UpdatePortfolio rm symbol p).portfolio.TotalValue ∧
    (UpdatePortfolio rm symbol p).portfolio.CurrentDrawdown
      = fdiv ((UpdatePortfolio rm symbol p).portfolio.PeakValue
            - (UpdatePortfolio rm symbol p).portfolio.TotalValue)
          (UpdatePortfolio rm symbol p).portfolio.PeakValue ∧
    (UpdatePortfolio rm symbol p).portfolio.MaxDrawdown
      = (if F64.gt (UpdatePortfolio rm symbol p).portfolio.CurrentDrawdown
            rm.portfolio.MaxDrawdown
         then (UpdatePortfolio rm symbol p).portfolio.CurrentDrawdown
         else rm.portfolio.MaxDrawdown) ∧
    (∀ m : ℚ, rm.portfolio.MaxDrawdown = F64.fin m →
      (UpdatePortfolio rm symbol p).portfolio.PeakValue ≠ 0 →
      (UpdatePortfolio rm symbol p).portfolio.CurrentDrawdown
        = F64.fin (((UpdatePortfolio rm symbol p).portfolio.PeakValue
            - (UpdatePortfolio rm symbol p).portfolio.TotalValue)
          / (UpdatePortfolio rm symbol p).portfolio.PeakValue) ∧
      (UpdatePortfolio rm symbol p).portfolio.MaxDrawdown
        = F64.fin (max m (((UpdatePortfolio rm symbol p).portfolio.PeakValue
            - (UpdatePortfolio rm symbol p).portfolio.TotalValue)
          / (UpdatePortfolio rm symbol p).portfolio.PeakValue))) ∧
    (UpdatePortfolio rm symbol p).portfolio.Cash = rm.portfolio.Cash ∧
    (UpdatePortfolio rm symbol p).portfolio.RiskBudget = rm.portfolio.RiskBudget ∧
    (UpdatePortfolio rm symbol p).config = rm.config := by
  obtain ⟨hp, hc⟩ := updatePortfolio_of_position rm symbol p pos h
  rw [hp, hc]
  simp only [updateTotalValue, foldl_add_map_sum, ite_gt_eq_max]
  refine ⟨?_, ?_, ?_, trivial, trivial, trivial, trivial, ?_, trivial, trivial, trivial⟩
  · rw [lookup_setCurrentPrice_self, h]
    rfl
  · intro k hk
    exact lookup_setCurrentPrice_ne _ _ _ _ hk
  · exact setCurrentPrice_keys _ _ _
  · intro m hm hne
    rw [hm, fdiv_of_ne hne, F64.gt_fin]
    refine ⟨rfl, ?_⟩
    split_ifs with hlt
    · rw [max_eq_right (le_of_lt (of_decide_eq_true hlt))]
    · rw [max_eq_left (not_lt.mp (fun hh => hlt (decide_eq_true hh)))]

/-- Witness for C19: one position "A" of 10 units at price 100, no cash, and
the price update to 90. -/
theorem updatePortfolio_effect_witness :
    (UpdatePortfolio
      { portfolio :=
          { TotalValue := 1000, Cash := 0,
            Positions := [("A", { Symbol := "A", Quantity := 10, EntryPrice := 100,
                                  CurrentPrice := 100, StopLoss := 95, TakeProfit := 120 })],
            RiskBudget := 100, MaxDrawdown := F64.fin 0, CurrentDrawdown := F64.fin 0,
            PeakValue := 1000 },
        config := DefaultRiskConfig, alerts := [] } "A" 90).portfolio.Positions.lookup "A"
      = some { Symbol := "A", Quantity := 10, EntryPrice := 100, CurrentPrice := 90,
               StopLoss := 95, TakeProfit := 120 } :=
  (updatePortfolio_effect _ "A" 90
    { Symbol := "A", Quantity := 10, EntryPrice := 100, CurrentPrice := 100,
      StopLoss := 95, TakeProfit := 120 } (lookup_cons_eq _ _ _)).1

/-- C21: for a symbol with an open position `pos`, `UpdatePortfolio symbol p`
keeps the alerts already in the log as a prefix and appends a "stop_loss" alert
of level high exactly when `p <= pos.StopLoss`, then a "take_profit" alert of
level medium exactly when `p >= pos.TakeProfit`, each with value `p` and the
crossed level as threshold; `ClearAlerts` leaves the log empty. -/
theorem updatePortfolio_alerts (rm : RiskManager) (symbol : String) (p : ℚ)
    (pos : Position) (h : rm.portfolio.Positions.lookup symbol = some pos) :
    (UpdatePortfolio rm symbol p).alerts
      = rm.alerts
        ++ (if p ≤ pos.StopLoss then
              [{ AlertType := "stop_loss", Message := "触发止损: " ++ symbol,
                 Level := "high", Value := F64.fin p, Threshold := pos.StopLoss }]
            else [])
        ++ (if p ≥ pos.TakeProfit then
              [{ AlertType := "take_profit", Message := "触发止盈: " ++ symbol,
                 Level := "medium", Value := F64.fin p, Threshold := pos.TakeProfit }]
            else []) ∧
    GetAlerts (ClearAlerts (UpdatePortfolio rm symbol p)) = [] := by
  refine ⟨?_, rfl⟩
  have hl : (updateTotalValue
      { rm with
        portfolio :=
          { rm.portfolio with
            Positions := setCurrentPrice rm.portfolio.Positions symbol p } }).portfolio.Positions.lookup
        symbol = some { pos with CurrentPrice := p } := by
    show (setCurrentPrice rm.portfolio.Positions symbol p).lookup symbol = _
    rw [lookup_setCurrentPrice_self, h]
    rfl
  simp only [UpdatePortfolio, h, checkStopLossTakeProfit, hl]
  by_cases h1 : p ≤ pos.StopLoss <;> by_cases h2 : p ≥ pos.TakeProfit <;>
    simp [h1, h2, addAlert, updateTotalValue]

/-- Witness for C21: one position "A" with stop-loss 95 and take-profit 120;
the update to 90 appends one "stop_loss" alert to the empty log. -/
theorem updatePortfolio_alerts_witness :
    (UpdatePortfolio
      { portfolio :=
          { TotalValue := 1000, Cash := 0,
            Positions := [("A", { Symbol := "A", Quantity := 10, EntryPrice := 100,
                                  CurrentPrice := 100, StopLoss := 95, TakeProfit := 120 })],
            RiskBudget := 100, MaxDrawdown := F64.fin 0, CurrentDrawdown := F64.fin 0,
            PeakValue := 1000 },
        config := DefaultRiskConfig, alerts := [] } "A" 90).alerts
      = [] ++ (if (90 : ℚ) ≤ 95 then
              [{ AlertType := "stop_loss", Message := "触发止损: " ++ "A",
                 Level := "high", Value := F64.fin 90, Threshold := 95 }]
            else [])
        ++ (if (90 : ℚ) ≥ 120 then
              [{ AlertType := "take_profit", Message := "触发止盈: " ++ "A",
                 Level := "medium", Value := F64.fin 90, Threshold := 120 }]
            else []) :=
  (updatePortfolio_alerts _ "A" 90
    { Symbol := "A", Quantity := 10, EntryPrice := 100, CurrentPrice := 100,
      StopLoss := 95, TakeProfit := 120 } (lookup_cons_eq _ _ _)).1

/-- C23: `UpdatePortfolio` for a symbol that has no open position returns the
manager unchanged: every field of the portfolio state and the alert log are
the same before and after the call. -/
theorem updatePortfolio_no_position_unchanged (rm : RiskManager) (symbol : String)
    (p : ℚ) (h : rm.portfolio.Positions.lookup symbol = none) :
    UpdatePortfolio rm symbol p = rm ∧
    (UpdatePortfolio rm symbol p).portfolio.TotalValue = rm.portfolio.TotalValue ∧
    (UpdatePortfolio rm symbol p).portfolio.Cash = rm.portfolio.Cash ∧
    (UpdatePortfolio rm symbol p).portfolio.Positions = rm.portfolio.Positions ∧
    (UpdatePortfolio rm symbol p).portfolio.PeakValue = rm.portfolio.PeakValue ∧
    (UpdatePortfolio rm symbol p).portfolio.CurrentDrawdown
      = rm.portfolio.CurrentDrawdown ∧
    (UpdatePortfolio rm symbol p).portfolio.MaxDrawdown = rm.portfolio.MaxDrawdown ∧
    (UpdatePortfolio rm symbol p).alerts = rm.alerts := by
  have hu := updatePortfolio_of_no_position rm symbol p h
  rw [hu]
  exact ⟨rfl, rfl, rfl, rfl, rfl, rfl, rfl, rfl⟩

/-- Witness for C23: the portfolio holds "A" only and the call names "B". -/
theorem updatePortfolio_no_position_unchanged_witness :
    (UpdatePortfolio
      { portfolio :=
          { TotalValue := 1000, Cash := 0,
            Positions := [("A", { Symbol := "A", Quantity := 10, EntryPrice := 100,
                                  CurrentPrice := 100, StopLoss := 95, TakeProfit := 120 })],
            RiskBudget := 100, MaxDrawdown := F64.fin 0, CurrentDrawdown := F64.fin 0,
            PeakValue := 1000 },
        config := DefaultRiskConfig, alerts := [] } "B" 3).portfolio.TotalValue = 1000 :=
  (updatePortfolio_no_position_unchanged _ "B" 3
    (by rw [lookup_cons_ne _ _ _ _ (by decide)]; rfl)).2.1

theorem foldl_append_filterMap {α β : Type} (l : List α) (c : α → Bool) (f : α → β)
    (init : List β) :
    l.foldl (fun acc x => if c x then acc ++ [f x] else acc) init
      = init ++ l.filterMap (fun x => if c x then some (f x) else none) := by
  induction l generalizing init with
  | nil => simp
  | cons x t ih =>
    rw [List.foldl_cons, ih]
    by_cases hc : c x = true
    · simp [hc, List.filterMap_cons]
    · simp [hc, List.filterMap_cons]

theorem roundF64_cases (x : ℚ) :
    (∃ a : ℚ, roundF64 x = F64.fin a) ∨ roundF64 x = F64.posInf ∨ roundF64 x = F64.negInf := by
  unfold roundF64
  split_ifs
  · exact Or.inr (Or.inl rfl)
  · exact Or.inr (Or.inr rfl)
  · exact Or.inl ⟨_, rfl⟩

theorem F64.add_nan (x : F64) : F64.add x F64.nan = F64.nan := by
  cases x <;> rfl

theorem F64.nan_add (x : F64) : F64.add F64.nan x = F64.nan := by
  cases x <;> rfl

/-- A position whose current price is zero contributes `0 * Inf` or `0 * NaN`,
which is NaN, and the sum is NaN from there on. -/
theorem totalRiskStep_zero_price (totalRisk : F64) (position : Position)
    (h : position.CurrentPrice = 0) : totalRiskStep totalRisk position = F64.nan := by
  have hpv : F64.mul (roundF64 (position.Quantity : ℚ)) (F64.fin 0) = F64.fin 0 ∨
      F64.mul (roundF64 (position.Quantity : ℚ)) (F64.fin 0) = F64.nan := by
    rcases roundF64_cases (position.Quantity : ℚ) with ⟨a, ha⟩ | ha | ha
    · left
      rw [ha]
      simp only [F64.mul, mul_zero]
      exact roundF64_zero
    · right
      rw [ha]
      simp [F64.mul]
    · right
      rw [ha]
      simp [F64.mul]
  have hsl : F64.div (F64.sub (F64.fin 0) (F64.fin position.StopLoss)) (F64.fin 0) = F64.nan ∨
      F64.div (F64.sub (F64.fin 0) (F64.fin position.StopLoss)) (F64.fin 0) = F64.posInf ∨
      F64.div (F64.sub (F64.fin 0) (F64.fin position.StopLoss)) (F64.fin 0) = F64.negInf := by
    have hs : F64.sub (F64.fin 0) (F64.fin position.StopLoss)
        = roundF64 (0 - position.StopLoss) := rfl
    rw [hs]
    rcases roundF64_cases (0 - position.StopLoss) with ⟨a, ha⟩ | ha | ha
    · rw [ha]
      simp only [F64.div, if_true]
      split_ifs
      · exact Or.inl rfl
      · exact Or.inr (Or.inl rfl)
      · exact Or.inr (Or.inr rfl)
    · rw [ha]
      simp [F64.div]
    · rw [ha]
      simp [F64.div]
  unfold totalRiskStep
  simp only [h]
  rcases hpv with hp | hp <;> rcases hsl with hs | hs | hs <;>
    rw [hp, hs] <;> simp [F64.mul, F64.add_nan]

theorem foldl_totalRiskStep_nan (l : List (String × Position)) :
    l.foldl (fun totalRisk kv => totalRiskStep totalRisk kv.2) F64.nan = F64.nan := by
  induction l with
  | nil => rfl
  | cons kv t ih =>
    rw [List.foldl_cons]
    have : totalRiskStep F64.nan kv.2 = F64.nan := by
      unfold totalRiskStep
      exact F64.nan_add _
    rw [this, ih]

theorem foldl_totalRiskStep_zero_price (l : List (String × Position)) (acc : F64)
    (h : ∃ kv ∈ l, kv.2.CurrentPrice = 0) :
    l.foldl (fun totalRisk kv => totalRiskStep totalRisk kv.2) acc = F64.nan := by
  induction l generalizing acc with
  | nil =>
    obtain ⟨kv, hkv, _⟩ := h
    exact absurd hkv (List.not_mem_nil _)
  | cons kv t ih =>
    rw [List.foldl_cons]
    by_cases h0 : kv.2.CurrentPrice = 0
    · rw [totalRiskStep_zero_price _ _ h0, foldl_totalRiskStep_nan]
    · apply ih
      obtain ⟨x, hx, hx0⟩ := h
      rcases List.mem_cons.mp hx with hx | hx
      · rw [hx] at hx0
        exact absurd hx0 h0
      · exact ⟨x, hx, hx0⟩

/-- The alerts of `CheckRiskLimits`, in the order they are appended. -/
theorem checkRiskLimits_eq (rm : RiskManager) :
    CheckRiskLimits rm
      = (if gtQ (calculateTotalRisk rm) rm.config.MaxTotalRisk then
            [{ AlertType := "total_risk", Message := "总风险超过限制", Level := "high",
               Value := calculateTotalRisk rm, Threshold := rm.config.MaxTotalRisk }]
          else [])
        ++ (if gtQ rm.portfolio.CurrentDrawdown rm.config.MaxDrawdownLimit then
            [{ AlertType := "max_drawdown", Message := "当前回撤超过限制",
               Level := "critical", Value := rm.portfolio.CurrentDrawdown,
               Threshold := rm.config.MaxDrawdownLimit }]
          else [])
        ++ rm.portfolio.Positions.filterMap (fun kv =>
            if gtQ (F64.div (F64.mul (roundF64 (kv.2.Quantity : ℚ)) (F64.fin kv.2.CurrentPrice))
                (F64.fin rm.portfolio.TotalValue)) rm.config.MaxPositionSize then
              some { AlertType := "position_size", Message := "单笔仓位过大: " ++ kv.1,
                     Level := "medium",
                     Value := F64.div
                       (F64.mul (roundF64 (kv.2.Quantity : ℚ)) (F64.fin kv.2.CurrentPrice))
                       (F64.fin rm.portfolio.TotalValue),
                     Threshold := rm.config.MaxPositionSize }
            else none) := by
  simp only [CheckRiskLimits, List.nil_append]
  rw [foldl_append_filterMap rm.portfolio.Positions
    (fun kv => gtQ (F64.div (F64.mul (roundF64 (kv.2.Quantity : ℚ))
      (F64.fin kv.2.CurrentPrice)) (F64.fin rm.portfolio.TotalValue))
      rm.config.MaxPositionSize)
    (fun kv => ({ AlertType := "position_size", Message := "单笔仓位过大: " ++ kv.1,
                   Level := "medium",
                   Value := F64.div
                     (F64.mul (roundF64 (kv.2.Quantity : ℚ)) (F64.fin kv.2.CurrentPrice))
                     (F64.fin rm.portfolio.TotalValue),
                   Threshold := rm.config.MaxPositionSize } : RiskAlert))]
  by_cases h1 : gtQ (calculateTotalRisk rm) rm.config.MaxTotalRisk = true <;>
  by_cases h2 : gtQ rm.portfolio.CurrentDrawdown rm.config.MaxDrawdownLimit = true <;>
  simp [h1, h2]

/-- C22 (counterexample): one position of quantity 1, current price 25 and stop
loss 11 in a portfolio of total value 140, under the default limits.  The
claimed total risk 1*25*(25 - 11)/25/140 is exactly 0.1, which does not exceed
MaxTotalRisk = 0.1; the code rounds (25 - 11)/25 to 0.56, 25 * 0.56 to
14.000000000000002 and the quotient by 140 to 0.10000000000000002, which
exceeds 0.1 (also as the float64 nearest to 0.1), so `CheckRiskLimits` raises
the "total_risk" alert. -/
theorem checkRiskLimits_total_risk_rounding :
    ([("A", ({ Symbol := "A", Quantity := 1, EntryPrice := 25, CurrentPrice := 25,
                StopLoss := 11, TakeProfit := 50 } : Position))].map
        (fun kv => (kv.2.Quantity : ℚ) * kv.2.CurrentPrice
          * (kv.2.CurrentPrice - kv.2.StopLoss) / kv.2.CurrentPrice)).sum / 140
      = (1 / 10 : ℚ) ∧
    ¬ ((1 / 10 : ℚ) > DefaultRiskConfig.MaxTotalRisk) ∧
    calculateTotalRisk
        { portfolio :=
            { TotalValue := 140, Cash := 115,
              Positions := [("A", { Symbol := "A", Quantity := 1, EntryPrice := 25,
                                    CurrentPrice := 25, StopLoss := 11, TakeProfit := 50 })],
              RiskBudget := 14, MaxDrawdown := F64.fin 0, CurrentDrawdown := F64.fin 0,
              PeakValue := 140 },
          config := DefaultRiskConfig, alerts := [] }
      = F64.fin (7205759403792795 / 2 ^ 56) ∧
    (7205759403792794 / 2 ^ 56 : ℚ) < 7205759403792795 / 2 ^ 56 ∧
    (CheckRiskLimits
        { portfolio :=
            { TotalValue := 140, Cash := 115,
              Positions := [("A", { Symbol := "A", Quantity := 1, EntryPrice := 25,
                                    CurrentPrice := 25, StopLoss := 11, TakeProfit := 50 })],
              RiskBudget := 14, MaxDrawdown := F64.fin 0, CurrentDrawdown := F64.fin 0,
              PeakValue := 140 },
          config := DefaultRiskConfig, alerts := [] }).map (fun a => a.AlertType)
      = ["total_risk", "position_size"] := by
  have hq : roundF64 ((1 : ℤ) : ℚ) = F64.fin 1 :=
    roundF64_eq _ _ 0 4503599627370496 (by norm_num) (by norm_num)
      (by norm_num [abs_of_pos]) (by norm_num [abs_of_pos]) (by norm_num [abs_lt])
      (by norm_num)
  have hpv : F64.mul (F64.fin 1) (F64.fin 25) = F64.fin 25 :=
    roundF64_eq ((1 : ℚ) * 25) _ 4 7036874417766400 (by norm_num) (by norm_num)
      (by norm_num [abs_of_pos]) (by norm_num [abs_of_pos]) (by norm_num [abs_lt])
      (by norm_num)
  have hsub : F64.sub (F64.fin 25) (F64.fin 11) = F64.fin 14 :=
    roundF64_eq ((25 : ℚ) - 11) _ 3 7881299347898368 (by norm_num) (by norm_num)
      (by norm_num [abs_of_pos]) (by norm_num [abs_of_pos]) (by norm_num [abs_lt])
      (by norm_num)
  have hslr : F64.div (F64.fin 14) (F64.fin 25) = F64.fin (5044031582654956 / 2 ^ 53) := by
    rw [F64.div_fin _ _ (by norm_num)]
    exact roundF64_eq _ _ (-1) 5044031582654956 (by norm_num) (by norm_num)
      (by norm_num [abs_of_pos]) (by norm_num [abs_of_pos]) (by norm_num [abs_lt])
      (by norm_num)
  have hprod : F64.mul (F64.fin 25) (F64.fin (5044031582654956 / 2 ^ 53))
      = F64.fin (7881299347898369 / 2 ^ 49) :=
    roundF64_eq ((25 : ℚ) * (5044031582654956 / 2 ^ 53)) _ 3 7881299347898369
      (by norm_num) (by norm_num)
      (by norm_num [abs_of_pos]) (by norm_num [abs_of_pos]) (by norm_num [abs_lt])
      (by norm_num)
  have hadd : F64.add (F64.fin 0) (F64.fin (7881299347898369 / 2 ^ 49))
      = F64.fin (7881299347898369 / 2 ^ 49) :=
    roundF64_eq ((0 : ℚ) + 7881299347898369 / 2 ^ 49) _ 3 7881299347898369
      (by norm_num) (by norm_num)
      (by norm_num [abs_of_pos]) (by norm_num [abs_of_pos]) (by norm_num [abs_lt])
      (by norm_num)
  have hdiv : F64.div (F64.fin (7881299347898369 / 2 ^ 49)) (F64.fin 140)
      = F64.fin (7205759403792795 / 2 ^ 56) := by
    rw [F64.div_fin _ _ (by norm_num)]
    exact roundF64_eq _ _ (-4) 7205759403792795 (by norm_num) (by norm_num)
      (by norm_num [abs_of_pos]) (by norm_num [abs_of_pos]) (by norm_num [abs_lt])
      (by norm_num)
  have hratio : F64.div (F64.fin 25) (F64.fin 140) = F64.fin (6433713753386423 / 2 ^ 55) := by
    rw [F64.div_fin _ _ (by norm_num)]
    exact roundF64_eq _ _ (-3) 6433713753386423 (by norm_num) (by norm_num)
      (by norm_num [abs_of_pos]) (by norm_num [abs_of_pos]) (by norm_num [abs_lt])
      (by norm_num)
  have hrisk : calculateTotalRisk
        { portfolio :=
            { TotalValue := 140, Cash := 115,
              Positions := [("A", { Symbol := "A", Quantity := 1, EntryPrice := 25,
                                    CurrentPrice := 25, StopLoss := 11, TakeProfit := 50 })],
              RiskBudget := 14, MaxDrawdown := F64.fin 0, CurrentDrawdown := F64.fin 0,
              PeakValue := 140 },
          config := DefaultRiskConfig, alerts := [] }
      = F64.fin (7205759403792795 / 2 ^ 56) := by
    simp only [calculateTotalRisk, List.foldl, totalRiskStep]
    rw [hq, hpv, hsub, hslr, hprod, hadd, hdiv]
  refine ⟨by norm_num, by norm_num [DefaultRiskConfig], hrisk, by norm_num, ?_⟩
  rw [checkRiskLimits_eq, hrisk]
  simp only [List.filterMap, hq, hpv, hratio, gtQ_fin, DefaultRiskConfig]
  norm_num

/-- C22 (amended): `CheckRiskLimits` returns, in this order, one "total_risk" alert iff
the total risk exceeds MaxTotalRisk, one "max_drawdown" alert of level critical
iff currentDrawdown > MaxDrawdownLimit, and one "position_size" alert of level
medium, carrying the ratio as value, for each position whose ratio
quantity*currentPrice/totalValue exceeds MaxPositionSize and none for the
others.  The total risk and the ratios are the float64 values the code
computes: the total risk adds, position after position in the order of
iteration, the rounded product of quantity*currentPrice and
(currentPrice - stopLoss)/currentPrice, each of them rounded, and divides the
sum by totalValue.  It is NaN, which exceeds no limit, when a current price is
zero. -/
theorem checkRiskLimits_alerts (rm : RiskManager) :
    CheckRiskLimits rm
      = (if gtQ (calculateTotalRisk rm) rm.config.MaxTotalRisk then
            [{ AlertType := "total_risk", Message := "总风险超过限制", Level := "high",
               Value := calculateTotalRisk rm, Threshold := rm.config.MaxTotalRisk }]
          else [])
        ++ (if gtQ rm.portfolio.CurrentDrawdown rm.config.MaxDrawdownLimit then
            [{ AlertType := "max_drawdown", Message := "当前回撤超过限制",
               Level := "critical", Value := rm.portfolio.CurrentDrawdown,
               Threshold := rm.config.MaxDrawdownLimit }]
          else [])
        ++ rm.portfolio.Positions.filterMap (fun kv =>
            if gtQ (F64.div (F64.mul (roundF64 (kv.2.Quantity : ℚ)) (F64.fin kv.2.CurrentPrice))
                (F64.fin rm.portfolio.TotalValue)) rm.config.MaxPositionSize then
              some { AlertType := "position_size", Message := "单笔仓位过大: " ++ kv.1,
                     Level := "medium",
                     Value := F64.div
                       (F64.mul (roundF64 (kv.2.Quantity : ℚ)) (F64.fin kv.2.CurrentPrice))
                       (F64.fin rm.portfolio.TotalValue),
                     Threshold := rm.config.MaxPositionSize }
            else none) ∧
    calculateTotalRisk rm
      = F64.div
          (rm.portfolio.Positions.foldl
            (fun totalRisk kv =>
              F64.add totalRisk
                (F64.mul (F64.mul (roundF64 (kv.2.Quantity : ℚ)) (F64.fin kv.2.CurrentPrice))
                  (F64.div (F64.sub (F64.fin kv.2.CurrentPrice) (F64.fin kv.2.StopLoss))
                    (F64.fin kv.2.CurrentPrice))))
            (F64.fin 0))
          (F64.fin rm.portfolio.TotalValue) ∧
    ((∃ kv ∈ rm.portfolio.Positions, kv.2.CurrentPrice = 0) →
      calculateTotalRisk rm = F64.nan ∧
      gtQ (calculateTotalRisk rm) rm.config.MaxTotalRisk = false) := by
  refine ⟨checkRiskLimits_eq rm, rfl, ?_⟩
  intro h
  have hn : calculateTotalRisk rm = F64.nan := by
    unfold calculateTotalRisk
    simp only [foldl_totalRiskStep_zero_price _ _ h]
    rfl
  rw [hn]
  exact ⟨rfl, rfl⟩

/-! ### Pattern aggregation -/

theorem foldl_append_filter {α : Type} (l : List α) (c : α → Prop) [DecidablePred c]
    (init : List α) :
    l.foldl (fun acc x => if c x then acc ++ [x] else acc) init
      = init ++ l.filter (fun x => decide (c x)) := by
  induction l generalizing init with
  | nil => simp
  | cons x t ih =>
    rw [List.foldl_cons, ih]
    by_cases hc : c x
    · simp [hc, List.filter_cons]
    · simp [hc, List.filter_cons]

/-- C24: `GetStrongestPatterns window minStrength` is, in the same order, the
results of `AnalyzeAllPatterns window` with detected = true and
strength >= minStrength; `AnalyzeAllPatterns window` is the results of Hammer,
Doji, Marubozu for a window of at least 1 bar, then BullishEngulfing for at
least 2 bars, then MorningStar for at least 3 bars, and is empty for the empty
window. -/
theorem getStrongestPatterns_is_filter (ps : PatternScorer) (cs : List CandlestickWrapper)
    (minStrength : ℚ) :
    GetStrongestPatterns ps cs minStrength
      = (AnalyzeAllPatterns ps cs).filter
          (fun r => decide (r.Detected = true ∧ r.Strength ≥ minStrength)) ∧
    AnalyzeAllPatterns ps cs
      = (if cs.length ≥ 1 then [ScoreHammer ps cs, ScoreDoji ps cs, ScoreMarubozu ps cs]
          else [])
        ++ (if cs.length ≥ 2 then [ScoreBullishEngulfing ps cs] else [])
        ++ (if cs.length ≥ 3 then [ScoreMorningStar ps cs] else []) ∧
    AnalyzeAllPatterns ps [] = [] := by
  refine ⟨?_, ?_, rfl⟩
  · simp only [GetStrongestPatterns]
    rw [foldl_append_filter (AnalyzeAllPatterns ps cs)
      (fun r => r.Detected = true ∧ r.Strength ≥ minStrength) []]
    rfl
  · simp only [AnalyzeAllPatterns, List.nil_append]
    by_cases h1 : cs.length ≥ 1 <;> by_cases h2 : cs.length ≥ 2 <;>
      by_cases h3 : cs.length ≥ 3 <;> simp [h1, h2, h3]

/-! ### Drawdown under extension -/

theorem f64_lt_trans {a b c : F64} (hab : F64.lt a b = true) (hbc : F64.lt b c = true) :
    F64.lt a c = true := by
  cases a <;> cases b <;> cases c <;> simp_all [F64.lt]
  exact lt_trans hab hbc

theorem f64_lt_ne_nan {a b : F64} (h : F64.lt a b = true) : b ≠ F64.nan := by
  cases a <;> cases b <;> simp_all [F64.lt]

theorem drawdownStep_max_mono (st : DrawdownState) (x : ℚ)
    (hn : st.maxDrawdown ≠ F64.nan) :
    ((drawdownStep st x).maxDrawdown = st.maxDrawdown ∨
      F64.gt (drawdownStep st x).maxDrawdown st.maxDrawdown = true) ∧
    (drawdownStep st x).maxDrawdown ≠ F64.nan := by
  simp only [drawdownStep]
  generalize fdiv ((if x > st.peak then x else st.peak) - x)
    (if x > st.peak then x else st.peak) = d
  by_cases h : F64.gt d st.maxDrawdown = true
  · rw [if_pos h]
    exact ⟨Or.inr h, f64_lt_ne_nan h⟩
  · rw [if_neg h]
    exact ⟨Or.inl rfl, hn⟩

theorem drawdown_fold_max_mono (l : List ℚ) (st : DrawdownState)
    (hn : st.maxDrawdown ≠ F64.nan) :
    ((l.foldl drawdownStep st).maxDrawdown = st.maxDrawdown ∨
      F64.gt (l.foldl drawdownStep st).maxDrawdown st.maxDrawdown = true) ∧
    (l.foldl drawdownStep st).maxDrawdown ≠ F64.nan := by
  induction l generalizing st with
  | nil => exact ⟨Or.inl rfl, hn⟩
  | cons x t ih =>
    obtain ⟨h1, h2⟩ := drawdownStep_max_mono st x hn
    obtain ⟨h3, h4⟩ := ih (drawdownStep st x) h2
    rw [List.foldl_cons]
    refine ⟨?_, h4⟩
    rcases h3 with h3 | h3
    · rw [h3]; exact h1
    · rcases h1 with h1 | h1
      · rw [← h1]; exact Or.inr h3
      · exact Or.inr (f64_lt_trans h1 h3)

/-- C25: the first component of `CalculateMaxDrawdown` does not decrease when
the series is extended: for every series `s` and extension `t` the maximum
drawdown of `s ++ t` equals that of `s` or is greater in the float order, and
it is never NaN. -/
theorem calculateMaxDrawdown_extend_mono (s t : List ℚ) :
    ((CalculateMaxDrawdown (s ++ t)).1 = (CalculateMaxDrawdown s).1 ∨
      F64.gt (CalculateMaxDrawdown (s ++ t)).1 (CalculateMaxDrawdown s).1 = true) ∧
    (CalculateMaxDrawdown (s ++ t)).1 ≠ F64.nan := by
  cases s with
  | nil =>
    cases t with
    | nil => exact ⟨Or.inl rfl, by simp [CalculateMaxDrawdown]⟩
    | cons t0 tt =>
      have h := drawdown_fold_max_mono (t0 :: tt)
        { maxDrawdown := F64.fin 0, currentDrawdown := F64.fin 0, peak := t0 }
        (by simp)
      simpa [CalculateMaxDrawdown] using h
  | cons s0 ss =>
    have h := drawdown_fold_max_mono t
      ((s0 :: ss).foldl drawdownStep
        { maxDrawdown := F64.fin 0, currentDrawdown := F64.fin 0, peak := s0 })
      (drawdown_fold_max_mono (s0 :: ss) _ (by simp)).2
    simpa [CalculateMaxDrawdown, List.foldl_append] using h

/-! ### Pattern scorer: Hammer on well-formed bars -/

/-- A well-formed bar splits its range into upper shadow, body and lower
shadow, none of them negative. -/
theorem wellFormed_bar_parts (c : CandlestickWrapper)
    (hlow : c.Low ≤ min c.Open c.Close) (hhigh : max c.Open c.Close ≤ c.High) :
    0 ≤ c.UpperShadow ∧ 0 ≤ c.LowerShadow ∧ 0 ≤ c.Body ∧
    c.High - c.Low = c.UpperShadow + c.Body + c.LowerShadow := by
  simp only [CandlestickWrapper.UpperShadow, CandlestickWrapper.LowerShadow,
    CandlestickWrapper.Body]
  refine ⟨sub_nonneg.mpr hhigh, sub_nonneg.mpr hlow, abs_nonneg _, ?_⟩
  rcases le_total c.Open c.Close with h | h
  · rw [max_eq_right h, min_eq_left h, abs_of_nonneg (sub_nonneg.mpr h)]
    ring
  · rw [max_eq_left h, min_eq_right h, abs_of_nonpos (sub_nonpos.mpr h)]
    ring

/-- C26: under `DefaultPatternConfig`, for every window whose most recent bar
is well-formed, whatever the volumes and the older bars, if `ScoreHammer`
returns detected = true then the lower shadow of that bar is more than twice
its body and the body is positive. -/
theorem scoreHammer_detected_long_lower_shadow (c : CandlestickWrapper)
    (rest : List CandlestickWrapper)
    (hlow : c.Low ≤ min c.Open c.Close) (hhigh : max c.Open c.Close ≤ c.High)
    (hd : (ScoreHammer (NewPatternScorer DefaultPatternConfig) (c :: rest)).Detected = true) :
    c.LowerShadow > 2 * c.Body ∧ 0 < c.Body := by
  obtain ⟨hu, hl, hb, hR⟩ := wellFormed_bar_parts c hlow hhigh
  by_cases hg : c.Body = 0 ∨ c.High - c.Low = 0
  · simp only [ScoreHammer, if_pos hg] at hd
    exact absurd hd (by simp [notDetected])
  · have hb0 : c.Body ≠ 0 := fun h => hg (Or.inl h)
    have hR0 : c.High - c.Low ≠ 0 := fun h => hg (Or.inr h)
    have hbpos : 0 < c.Body := lt_of_le_of_ne hb (Ne.symm hb0)
    have hRpos : 0 < c.High - c.Low := by rw [hR]; linarith
    refine ⟨?_, hbpos⟩
    by_contra hcon
    have hle : c.LowerShadow ≤ 2 * c.Body := not_lt.mp hcon
    have h2 : ¬ (c.LowerShadow > 2 * c.Body) := hcon
    have h3 : ¬ (c.LowerShadow > 3 * c.Body) := by
      intro h
      linarith
    have hshape : c.Body / (c.High - c.Low) < 0.1 →
        ¬ (0.2 < c.LowerShadow / (c.High - c.Low)) := by
      intro h1 h4
      rw [div_lt_iff₀ hRpos] at h1
      rw [lt_div_iff₀ hRpos] at h4
      linarith
    simp only [ScoreHammer, NewPatternScorer, DefaultPatternConfig, if_neg hg,
      fdiv_of_ne hR0, ltQ_fin, gtQ_fin, decide_eq_true_eq, if_neg h2, if_neg h3] at hd
    by_cases h1 : c.Body / (c.High - c.Low) < 0.1
    · have h4 := hshape h1
      simp only [if_pos h1, if_neg h4] at hd
      split_ifs at hd <;> norm_num at hd
    · simp only [if_neg h1] at hd
      split_ifs at hd <;> norm_num at hd

/-- Witness for C26: the Hammer bar of the test data, open 105, high 107,
low 90, close 106, is well-formed and detected. -/
theorem scoreHammer_detected_long_lower_shadow_witness :
    (ScoreHammer (NewPatternScorer DefaultPatternConfig)
      [mkBar 105 107 90 106 1500]).Detected = true ∧
    (mkBar 105 107 90 106 1500).LowerShadow > 2 * (mkBar 105 107 90 106 1500).Body ∧
    0 < (mkBar 105 107 90 106 1500).Body := by
  have hd : (ScoreHammer (NewPatternScorer DefaultPatternConfig)
      [mkBar 105 107 90 106 1500]).Detected = true := by
    have hb : |(106 : ℚ) - 105| = 1 := by norm_num
    simp only [ScoreHammer, NewPatternScorer, DefaultPatternConfig, mkBar,
      CandlestickWrapper.Body, CandlestickWrapper.LowerShadow,
      CandlestickWrapper.UpperShadow, hb]
    norm_num [fdiv, ltQ, gtQ, F64.lt, F64.gt]
  exact ⟨hd, scoreHammer_detected_long_lower_shadow (mkBar 105 107 90 106 1500) []
    (by norm_num [mkBar]) (by norm_num [mkBar]) hd⟩

/-! ### Volatility divisors -/

/-- For positive prices, at least two of them, the volatility is a finite
number exactly when there are three or more prices. -/
theorem calculateVolatility_finite_iff (sqrt : ℚ → ℚ) (prices : List ℚ)
    (hpos : ∀ p ∈ prices, 0 < p) (h2 : 2 ≤ prices.length) :
    (CalculateVolatility sqrt prices).isSome = true ↔ 3 ≤ prices.length := by
  have hz : ∀ p ∈ prices.dropLast, p ≠ 0 := fun p hp =>
    ne_of_gt (hpos p (List.mem_of_mem_dropLast hp))
  have hcore := volatility_core_eq prices h2
  unfold CalculateVolatility
  rw [if_neg (by omega)]
  by_cases h3 : 3 ≤ prices.length
  · rw [if_pos ⟨hz, h3⟩] at hcore
    obtain ⟨rs, hrs, hv⟩ := Option.bind_eq_some.mp hcore
    simp only [hrs, hv, Option.bind_eq_bind, Option.some_bind, Option.pure_def,
      Option.isSome_some, true_iff]
    exact h3
  · rw [if_neg (fun h => h3 h.2)] at hcore
    cases hd : dailyReturns prices with
    | none => simp [h3]
    | some rs =>
      have : returnsVariance rs = none := by
        rw [hd] at hcore
        simpa using hcore
      simp [this, h3]

/-- C28 (evaluation at the failing input): for the two positive prices 100 and
110 there is one return, 0.1; the variance loop leaves 0 and divides it by
`len(returns) - 1 = 0`, so the variance, and with it the volatility, is NaN
(`none`), whatever `math.Sqrt` does.  With three or more positive prices every
divisor is non-zero. -/
theorem calculateVolatility_two_prices_nan (sqrt : ℚ → ℚ) :
    dailyReturns [100, 110] = some [1 / 10] ∧
    ((([1 / 10] : List ℚ).length : ℤ) - 1 = 0) ∧
    returnsVariance [1 / 10] = none ∧
    CalculateVolatility sqrt [100, 110] = none := by
  have h1 : dailyReturns [100, 110] = some [1 / 10] := by
    simp [dailyReturns, cdiv]
    norm_num
  have h2 : returnsVariance [1 / 10] = none := by
    simp [returnsVariance, cdiv]
  refine ⟨h1, by simp, h2, ?_⟩
  unfold CalculateVolatility
  rw [if_neg (by simp), h1]
  simp only [Option.bind_eq_bind, Option.some_bind, h2, Option.none_bind]

end Candle
